import Mathlib

/-!
# DreamArtMachine — verification of the SKU/slug lifecycle engine

Shallow embedding of the artwork pipeline of this repository:

* `services/sku_service.py`           — `get_next_sku`
* `services/finalise_service.py`      — `finalise_artwork`, `_generate_preview`,
                                        `_update_master_paths`
* `services/artwork_analysis_service.py` — `analyze_artwork`
* `scripts/generate_composites.py`    — `generate`
* `tools/validate_sku_integrity.py`   — `check_unanalysed`, `check_processed`, `validate`
* `routes/artwork_routes.py`          — `_resize_long_edge` and the upload derivative sizes

The repository's `config.py` module (imported by all services) is not part of
the source tree; the constants and path helpers it provides are modelled from
the spec (section "Directory layout") and are marked `Modelled from the spec:`
below.

The file system is modelled as a partial map from path strings to file
contents.  Stateful operations are embedded as functions that either fail
(before touching any state, exactly where the Python code raises before its
first write) or return the list of primitive steps (file writes, removes,
renames, registry commits) that the Python code performs, in order.  Running
the steps over a state yields the final state.  Image encoding is abstracted
as an explicit function parameter (content × quality → bytes).
-/

/-- A file system: path → file content (`none` = no such file). -/
def FS : Type := String → Option String

/-- Does a path exist in the file system? -/
def FS.exists? (fs : FS) (p : String) : Bool := (fs p).isSome

/-- Write (create or overwrite) a file. -/
def FS.write (fs : FS) (p c : String) : FS :=
  fun q => if q = p then some c else fs q

/-- Remove a file. -/
def FS.remove (fs : FS) (p : String) : FS :=
  fun q => if q = p then none else fs q

/-- Atomic rename (`Path.replace` / `shutil.move`): `dst` receives the content
of `src` and `src` disappears. -/
def FS.move (fs : FS) (src dst : String) : FS :=
  fun q => if q = dst then fs src else if q = src then none else fs q

/-- A registry record: the path-valued fields of a slug's entry in
`master-artwork-paths.json`, plus the metadata fields written by
finalisation (`finalise_service._update_master_paths`). -/
structure RegRecord where
  paths : List String
  title : String
  description : String
  primary_colour : String
  secondary_colour : String
  status : String
deriving DecidableEq

/-- Primitive effects of a lifecycle operation, in program order.
`reg` is the atomic registry commit (`_update_master_paths` writes a `.tmp`
file and renames it over the registry; per spec §5 that temp-write-then-rename
is the atomic registry update, modelled as one step over the registry map). -/
inductive Step where
  | write (p c : String)
  | remove (p : String)
  | move (src dst : String)
  | reg (slug : String) (rec : RegRecord)
deriving DecidableEq

/-- Is a step the registry commit? -/
def Step.isReg : Step → Bool
  | .reg _ _ => true
  | _ => false

/-- Whole system state: the file tree plus the parsed content of the master
registry file (slug → record). -/
structure Sys where
  fs : FS
  reg : String → Option RegRecord

/-- Apply one primitive step. -/
def Sys.apply (sys : Sys) : Step → Sys
  | .write p c => { sys with fs := sys.fs.write p c }
  | .remove p => { sys with fs := sys.fs.remove p }
  | .move src dst => { sys with fs := sys.fs.move src dst }
  | .reg slug rec =>
      { sys with reg := fun s => if s = slug then some rec else sys.reg s }

/-- Run a list of steps in order. -/
def Sys.run (sys : Sys) : List Step → Sys
  | [] => sys
  | s :: rest => (sys.apply s).run rest

/-! ## Configuration (`config.py` is absent from the source tree)

Modelled from the spec: §6 "Directory layout" gives the three stage roots,
the registry file and the SKU tracker; §4.1 gives the SKU format
`PREFIX-{N:0width}` and the repository's tests (`tests/test_restore_integrity.py`)
fix the prefix `RJC` and a 5-digit zero-padded number (`RJC-00001`). -/

/-- Modelled from the spec: the unanalysed stage root (`config.UNANALYSED_ARTWORK_DIR`). -/
def UNANALYSED_ARTWORK_DIR : String := "unanalysed-artwork"

/-- Modelled from the spec: the processed stage root (`config.PROCESSED_ARTWORK_DIR`). -/
def PROCESSED_ARTWORK_DIR : String := "processed-artwork"

/-- Modelled from the spec: the finalised stage root (`config.FINALISED_ARTWORK_DIR`). -/
def FINALISED_ARTWORK_DIR : String := "finalised-artwork"

/-- Modelled from the spec: the SKU prefix (`config.SKU_PREFIX`), `RJC` in the
repository's tests. -/
def SKU_PREFIX : String := "RJC"

/-- Modelled from the spec: the SKU number width (`config.SKU_DIGITS`), 5 in the
repository's tests (`RJC-00001`). -/
def SKU_DIGITS : Nat := 5

/-- Lowercase a character, keep alphanumerics, map anything else to a hyphen
(helper for `sanitize_slug`). -/
def sanChar (c : Char) : Char := if c.isAlphanum then c.toLower else '-'

/-- Modelled from the spec: `config.sanitize_slug` — "lowercase, filesystem-safe
token (alphanumerics and hyphens only, no path separators, no leading/trailing
hyphens)" (§4.2). -/
def sanitize_slug (raw : String) : String :=
  let l := (raw.data.map sanChar).dropWhile (fun c => c = '-')
  String.mk ((l.reverse.dropWhile (fun c => c = '-')).reverse)

/-- Modelled from the spec: `config.processed_artwork_path` — the canonical
main artwork file `processed/<slug>/<slug>.jpg` the analysis step moves into
(§4.4 "moves that file into the processed root under a canonical name
`<slug>.<ext>`"). -/
def processed_artwork_path (slug : String) : String :=
  PROCESSED_ARTWORK_DIR ++ "/" ++ slug ++ "/" ++ slug ++ ".jpg"

/-- Modelled from the spec: `config.processed_analysis_path` — the analysis
JSON written next to the processed artwork. -/
def processed_analysis_path (slug : String) : String :=
  PROCESSED_ARTWORK_DIR ++ "/" ++ slug ++ "/" ++ slug ++ "-analysis.json"

/-- Modelled from the spec: `config.processed_openai_path` — the auxiliary
derived image written by the analysis step. -/
def processed_openai_path (slug : String) : String :=
  PROCESSED_ARTWORK_DIR ++ "/" ++ slug ++ "/" ++ slug ++ "-openai.jpg"

/-- Modelled from the spec: `config.finalised_artwork_path` — the final
artwork image `finalised/<slug>/<slug>.jpg`. -/
def finalised_artwork_path (slug : String) : String :=
  FINALISED_ARTWORK_DIR ++ "/" ++ slug ++ "/" ++ slug ++ ".jpg"

/-- Modelled from the spec: `config.preview_path` — the preview image of a
finalised artwork. -/
def preview_path (slug : String) : String :=
  FINALISED_ARTWORK_DIR ++ "/" ++ slug ++ "/" ++ slug ++ "-preview.jpg"

/-- Two-digit zero-padded slot number (Python `f"{i:02}"`, for slots 1–9). -/
def slotDigits (i : Nat) : String :=
  if i < 10 then String.mk ['0', Char.ofNat (48 + i)] else toString i

/-- Modelled from the spec: `config.mockup_path` — numbered mockup `N`
(1-indexed) of a slug, `<slug>-MU-0N.jpg` under the finalised root (§6). -/
def mockup_path (slug : String) (i : Nat) : String :=
  FINALISED_ARTWORK_DIR ++ "/" ++ slug ++ "/" ++ slug ++ "-MU-" ++ slotDigits i ++ ".jpg"

/-! ## String helper lemmas -/

theorem String.ext_data {s t : String} (h : s.data = t.data) : s = t := by
  cases s; cases t; simp only at h; rw [h]

theorem data_append' (s t : String) : (s ++ t).data = s.data ++ t.data :=
  String.data_append s t

/-- Two strings with distinct final characters are distinct. -/
theorem ne_of_last_char {s t : String} {a b : Char}
    (hs : s.data.getLast? = some a) (ht : t.data.getLast? = some b) (hab : a ≠ b) :
    s ≠ t := by
  intro h
  rw [h, ht] at hs
  exact hab (Option.some_injective _ hs.symm)

/-- The final character of `s ++ t` is the final character of `t` when `t` is
nonempty. -/
theorem last_char_append (s t : String) {a : Char} (ht : t.data.getLast? = some a) :
    (s ++ t).data.getLast? = some a := by
  rw [data_append', List.getLast?_append, ht]; rfl

/-! ## SKU allocation (`services/sku_service.py`)

`get_next_sku(tracker)` reads `{"last": n}` from the tracker file (0 when the
file is absent; 0 with a logged warning when reading/parsing raises), writes
back `{"last": n+1}` and returns `f"{SKU_PREFIX}-{n+1:0{SKU_DIGITS}d}"`.
The tracker file is modelled as `Option (Option Nat)`: `none` = absent,
`some none` = present but unreadable, `some (some n)` = `{"last": n}`. -/

/-- Little-endian decimal digits, with explicit structural fuel so the kernel
can evaluate it (first argument is the fuel). -/
def decDigitsAux : Nat → Nat → List Nat
  | 0, _ => []
  | _ + 1, 0 => []
  | fuel + 1, n + 1 => ((n + 1) % 10) :: decDigitsAux fuel ((n + 1) / 10)

/-- Little-endian decimal digits of `n` (empty for 0, like `Nat.digits`). -/
def decimalDigitsLE (n : Nat) : List Nat := decDigitsAux n n

/-- ASCII digit character for a digit value. -/
def digitChar (d : Nat) : Char := Char.ofNat (48 + d)

/-- Big-endian digit list of `n`, zero-padded on the left to width `w`
(Python `f"{n:0wd}"` digit for digit). -/
def padDigits (w n : Nat) : List Nat :=
  let ds := (decimalDigitsLE n).reverse
  List.replicate (w - ds.length) 0 ++ ds

/-- Zero-padded decimal rendering of `n` to width `w` (Python `f"{n:0wd}"`). -/
def formatNum (w n : Nat) : String := String.mk ((padDigits w n).map digitChar)

/-- The SKU string `f"{SKU_PREFIX}-{n:0{SKU_DIGITS}d}"`. -/
def formatSku (n : Nat) : String := SKU_PREFIX ++ "-" ++ formatNum SKU_DIGITS n

/-- Result of one `get_next_sku` call: the returned SKU, the tracker file
content after the call, and whether the corrupt-tracker warning was logged. -/
structure SkuResult where
  sku : String
  tracker : Option (Option Nat)
  warned : Bool
deriving DecidableEq

/-- `services/sku_service.get_next_sku`: read the last used number (0 when the
tracker is absent; 0 plus a logged warning when its content is unreadable),
increment, write back, format.  Total: the read failure is caught. -/
def get_next_sku (tracker : Option (Option Nat)) : SkuResult :=
  let lastWarn : Nat × Bool :=
    match tracker with
    | none => (0, false)
    | some none => (0, true)
    | some (some n) => (n, false)
  let next := lastWarn.1 + 1
  { sku := formatSku next, tracker := some (some next), warned := lastWarn.2 }

/-- `n` successive calls to `get_next_sku`, returning the SKUs in order. -/
def skuCalls : Nat → Option (Option Nat) → List String
  | 0, _ => []
  | n + 1, t =>
      let r := get_next_sku t
      r.sku :: skuCalls n r.tracker

/-! ### Correctness of the decimal formatter -/

theorem decDigitsAux_eq_digits :
    ∀ n fuel, n ≤ fuel → decDigitsAux fuel n = Nat.digits 10 n := by
  intro n
  induction n using Nat.strong_induction_on with
  | _ n ih =>
    intro fuel hle
    match fuel, n with
    | 0, 0 => simp [decDigitsAux]
    | fuel + 1, 0 => simp [decDigitsAux]
    | 0, n + 1 => omega
    | fuel + 1, m + 1 =>
      have hdiv : (m + 1) / 10 < m + 1 := Nat.div_lt_self (Nat.succ_pos m) (by norm_num)
      rw [decDigitsAux, ih ((m + 1) / 10) hdiv fuel (by omega),
        Nat.digits_def' (b := 10) (by norm_num) (Nat.succ_pos m)]

theorem decimalDigitsLE_eq_digits (n : Nat) : decimalDigitsLE n = Nat.digits 10 n :=
  decDigitsAux_eq_digits n n le_rfl

/-- Evaluate a big-endian digit list. -/
def evalBE (ds : List Nat) : Nat := ds.foldl (fun acc d => acc * 10 + d) 0

/-- Decode a decimal string back to a number (left inverse of `formatNum`). -/
def parseNum (s : String) : Nat := evalBE (s.data.map (fun c => c.toNat - 48))

theorem evalBE_replicate_zero (k : Nat) (ds : List Nat) :
    evalBE (List.replicate k 0 ++ ds) = evalBE ds := by
  induction k with
  | zero => rfl
  | succ k ih => simpa [evalBE, List.replicate_succ] using ih

theorem foldr_eq_ofDigits (l : List Nat) :
    l.foldr (fun d acc => acc * 10 + d) 0 = Nat.ofDigits 10 l := by
  induction l with
  | nil => simp [Nat.ofDigits_nil]
  | cons d rest ih => simp [Nat.ofDigits_cons, ih]; ring

theorem evalBE_padDigits (w n : Nat) : evalBE (padDigits w n) = n := by
  rw [padDigits, evalBE_replicate_zero, decimalDigitsLE_eq_digits, evalBE,
    List.foldl_reverse]
  rw [show (fun (x : Nat) (y : Nat) => y * 10 + x) = (fun d acc => acc * 10 + d) from rfl,
    foldr_eq_ofDigits, Nat.ofDigits_digits]

theorem padDigits_lt_ten (w n : Nat) : ∀ d ∈ padDigits w n, d < 10 := by
  intro d hd
  rw [padDigits, List.mem_append] at hd
  rcases hd with h | h
  · rw [List.eq_of_mem_replicate h]; norm_num
  · rw [decimalDigitsLE_eq_digits, List.mem_reverse] at h
    exact Nat.digits_lt_base (by norm_num) h

theorem toNat_digitChar {d : Nat} (h : d < 10) : (digitChar d).toNat = 48 + d := by
  interval_cases d <;> rfl

theorem parseNum_formatNum (w n : Nat) : parseNum (formatNum w n) = n := by
  have hmap : (padDigits w n).map (fun d => (digitChar d).toNat - 48) = padDigits w n := by
    rw [show padDigits w n = (padDigits w n).map id from (List.map_id _).symm]
    rw [List.map_map]
    apply List.map_congr_left
    intro d hd
    simp [toNat_digitChar (padDigits_lt_ten w n d hd)]
  rw [parseNum, formatNum]
  show evalBE (((padDigits w n).map digitChar).map (fun c => c.toNat - 48)) = n
  rw [List.map_map]
  rw [show ((fun (c : Char) => c.toNat - 48) ∘ digitChar) =
        (fun d => (digitChar d).toNat - 48) from rfl, hmap, evalBE_padDigits]

theorem formatNum_injective (w : Nat) : Function.Injective (formatNum w) := by
  intro a b h
  have := congrArg parseNum h
  rwa [parseNum_formatNum, parseNum_formatNum] at this

theorem formatSku_injective : Function.Injective formatSku := by
  intro a b h
  apply formatNum_injective SKU_DIGITS
  apply String.ext_data
  have hd := congrArg String.data h
  rw [formatSku, formatSku, data_append', data_append'] at hd
  exact List.append_cancel_left hd

theorem skuCalls_from (n : Nat) :
    ∀ last, skuCalls n (some (some last)) =
      (List.range n).map (fun k => formatSku (last + 1 + k)) := by
  induction n with
  | zero => intro last; rfl
  | succ n ih =>
    intro last
    rw [skuCalls]
    show formatSku (last + 1) :: skuCalls n (some (some (last + 1))) = _
    rw [ih (last + 1), List.range_succ_eq_map, List.map_cons, List.map_map]
    refine congrArg₂ _ (by rw [Nat.add_zero]) (List.map_congr_left ?_)
    intro k _
    show formatSku (last + 1 + 1 + k) = formatSku (last + 1 + (k + 1))
    congr 1
    omega

/-- C3 (counterexample): the claim states that when the tracker file is
absent a warning is logged; in `get_next_sku` the warning is only logged when
reading an *existing* tracker raises — an absent tracker takes the silent
default branch (`last = 0`, no warning), and the call still returns
`RJC-00001`. -/
theorem sku_absent_tracker_logs_no_warning :
    (get_next_sku none).warned = false ∧ (get_next_sku none).sku = "RJC-00001" := by
  exact ⟨rfl, by decide⟩

/-- C3 (amended): `N` successive calls to `get_next_sku` starting from an
absent tracker return exactly `PREFIX-00001 … PREFIX-0000N` with no repeats
(concretely `RJC-00001, RJC-00002, RJC-00003` for `N = 3`); an absent tracker
and an unreadable tracker are both treated as last-used 0 (the next SKU is
number 1), the warning being logged exactly in the unreadable case; the call
is total (the read failure is caught), never raising. -/
theorem sku_allocator_sequence (N : Nat) :
    skuCalls N none = (List.range N).map (fun k => formatSku (k + 1)) ∧
    (skuCalls N none).Nodup ∧
    skuCalls 3 none = ["RJC-00001", "RJC-00002", "RJC-00003"] ∧
    (get_next_sku none).sku = formatSku 1 ∧ (get_next_sku none).warned = false ∧
    (get_next_sku (some none)).sku = formatSku 1 ∧ (get_next_sku (some none)).warned = true := by
  have hseq : ∀ M, skuCalls M none = (List.range M).map (fun k => formatSku (k + 1)) := by
    intro M
    cases M with
    | zero => rfl
    | succ n =>
      rw [skuCalls]
      show formatSku 1 :: skuCalls n (some (some 1)) = _
      rw [skuCalls_from, List.range_succ_eq_map, List.map_cons, List.map_map]
      refine congrArg₂ _ rfl (List.map_congr_left ?_)
      intro k _
      show formatSku (1 + 1 + k) = formatSku (k + 1 + 1)
      congr 1
      omega
  have hinj : Function.Injective (fun k => formatSku (k + 1)) := by
    intro a b h
    have := formatSku_injective h
    omega
  refine ⟨hseq N, ?_, by decide, rfl, rfl, rfl, rfl⟩
  rw [hseq N]
  exact (List.nodup_range N).map hinj

/-! ## Derivative resizing (`routes/artwork_routes.py`)

`_resize_long_edge(img, long_edge)` returns the image unchanged when its long
edge is already within the bound, else scales the long edge down to the bound
and the short edge proportionally (`int(long_edge * h / w)`, i.e. the floor of
the exact proportional value; Python's `int()` truncation of the division is
modelled as `Nat` floor division).  `upload_artwork` calls it with bound 2000
for the THUMB derivative and 3800 for the ANALYSE derivative. -/

/-- `routes/artwork_routes._resize_long_edge` on the dimension pair. -/
def resize_long_edge (w h L : Nat) : Nat × Nat :=
  if max w h ≤ L then (w, h)
  else if h ≤ w then (L, L * h / w)
  else (L * w / h, L)

/-- THUMB bound used by `upload_artwork` (`_resize_long_edge(img, 2000)`). -/
def THUMB_LONG_EDGE : Nat := 2000

/-- ANALYSE bound used by `upload_artwork` (`_resize_long_edge(img, 3800)`). -/
def ANALYSE_LONG_EDGE : Nat := 3800

/-- The two derivative sizes produced by `upload_artwork` for a source of
dimensions `w × h`. -/
def upload_derivative_sizes (w h : Nat) : (Nat × Nat) × (Nat × Nat) :=
  (resize_long_edge w h THUMB_LONG_EDGE, resize_long_edge w h ANALYSE_LONG_EDGE)

/-- C9: derivative generation bounds the long edge by the requested bound
(2000 for thumb, 3800 for analyse via `upload_derivative_sizes`), never
upscales (a source within the bound keeps its own dimensions), and preserves
the aspect ratio up to the floor rounding the code performs: the short edge is
the floor of the exact proportional value (`w * h' ≤ L * h < w * h' + w`). -/
theorem resize_long_edge_correct (w h L : Nat) (hw : 0 < w) (hh : 0 < h) :
    max (resize_long_edge w h L).1 (resize_long_edge w h L).2 ≤ L ∧
    (max w h ≤ L → resize_long_edge w h L = (w, h)) ∧
    (L < max w h → h ≤ w →
      resize_long_edge w h L = (L, L * h / w) ∧
      w * (L * h / w) ≤ L * h ∧ L * h < w * (L * h / w) + w) ∧
    (L < max w h → w < h →
      resize_long_edge w h L = (L * w / h, L) ∧
      h * (L * w / h) ≤ L * w ∧ L * w < h * (L * w / h) + h) ∧
    upload_derivative_sizes w h =
      (resize_long_edge w h 2000, resize_long_edge w h 3800) := by
  refine ⟨?_, ?_, ?_, ?_, rfl⟩
  · rw [resize_long_edge]
    split
    · simpa using (by assumption : max w h ≤ L)
    · split
      · next hwh hhw =>
        have hdiv : L * h / w ≤ L := by
          calc L * h / w ≤ L * w / w := Nat.div_le_div_right (by exact Nat.mul_le_mul_left L hhw)
            _ = L := Nat.mul_div_cancel L hw
        simpa using hdiv
      · next hwh hhw =>
        have hdiv : L * w / h ≤ L := by
          calc L * w / h ≤ L * h / h :=
            Nat.div_le_div_right (Nat.mul_le_mul_left L (by omega : w ≤ h))
            _ = L := Nat.mul_div_cancel L hh
        simpa using hdiv
  · intro hle
    rw [resize_long_edge, if_pos hle]
  · intro hgt hhw
    rw [resize_long_edge, if_neg (by omega), if_pos hhw]
    refine ⟨rfl, ?_, ?_⟩
    · calc w * (L * h / w) = (L * h / w) * w := Nat.mul_comm _ _
        _ ≤ L * h := Nat.div_mul_le_self _ _
    · have hmod := Nat.div_add_mod (L * h) w
      have hlt : L * h % w < w := Nat.mod_lt _ hw
      omega
  · intro hgt hwh
    rw [resize_long_edge, if_neg (by omega), if_neg (by omega)]
    refine ⟨rfl, ?_, ?_⟩
    · calc h * (L * w / h) = (L * w / h) * h := Nat.mul_comm _ _
        _ ≤ L * w := Nat.div_mul_le_self _ _
    · have hmod := Nat.div_add_mod (L * w) h
      have hlt : L * w % h < h := Nat.mod_lt _ hh
      omega

/-- Witness for `resize_long_edge_correct` at a 4000 × 3000 source with bound
2000: the hypotheses hold and the theorem applies. -/
theorem resize_long_edge_correct_witness :
    0 < 4000 ∧ 0 < 3000 ∧
    (max (resize_long_edge 4000 3000 2000).1 (resize_long_edge 4000 3000 2000).2 ≤ 2000 ∧
    (max 4000 3000 ≤ 2000 → resize_long_edge 4000 3000 2000 = (4000, 3000)) ∧
    (2000 < max 4000 3000 → 3000 ≤ 4000 →
      resize_long_edge 4000 3000 2000 = (2000, 2000 * 3000 / 4000) ∧
      4000 * (2000 * 3000 / 4000) ≤ 2000 * 3000 ∧
      2000 * 3000 < 4000 * (2000 * 3000 / 4000) + 4000) ∧
    (2000 < max 4000 3000 → 4000 < 3000 →
      resize_long_edge 4000 3000 2000 = (2000 * 4000 / 3000, 2000) ∧
      3000 * (2000 * 4000 / 3000) ≤ 2000 * 4000 ∧
      2000 * 4000 < 3000 * (2000 * 4000 / 3000) + 3000) ∧
    upload_derivative_sizes 4000 3000 =
      (resize_long_edge 4000 3000 2000, resize_long_edge 4000 3000 3800)) :=
  ⟨by decide, by decide, resize_long_edge_correct 4000 3000 2000 (by decide) (by decide)⟩

/-! ## Preview generation loop (`finalise_service._generate_preview`)

The loop starts at `quality = 95`, saves the JPEG at the current quality,
stops when the file size is at most `PREVIEW_MAX_BYTES` or the quality has
reached 25, and otherwise decreases the quality by 5 and re-encodes.  The
encoder is abstracted as `size : Nat → Nat` giving the byte size of the
encoding at each quality. -/

/-- `finalise_service.PREVIEW_WIDTH`. -/
def PREVIEW_WIDTH : Nat := 2000

/-- `finalise_service.PREVIEW_MAX_BYTES` (`600 * 1024`). -/
def PREVIEW_MAX_BYTES : Nat := 600 * 1024

/-- The successive qualities at which the loop of `_generate_preview`
re-encodes, starting from `q` (the code starts at 95). -/
def previewAttempts (size : Nat → Nat) (q : Nat) : List Nat :=
  if h : size q ≤ PREVIEW_MAX_BYTES ∨ q ≤ 25 then [q]
  else q :: previewAttempts size (q - 5)
termination_by q
decreasing_by simp only [not_or, not_le] at h; omega

/-- The quality at which the loop of `_generate_preview` stops. -/
def previewLoopResult (size : Nat → Nat) (q : Nat) : Nat :=
  if size q ≤ PREVIEW_MAX_BYTES ∨ q ≤ 25 then q
  else previewLoopResult size (q - 5)
termination_by q
decreasing_by rename_i h; simp only [not_or, not_le] at h; omega

theorem previewAttempts_ne_nil (size : Nat → Nat) (q : Nat) :
    previewAttempts size q ≠ [] := by
  rw [previewAttempts]
  split <;> simp

theorem previewAttempts_head (size : Nat → Nat) (q : Nat) :
    (previewAttempts size q).head? = some q := by
  rw [previewAttempts]
  split <;> rfl

theorem previewAttempts_getLast (size : Nat → Nat) (q : Nat) :
    (previewAttempts size q).getLast? = some (previewLoopResult size q) := by
  induction q using Nat.strong_induction_on with
  | _ q ih =>
    rw [previewAttempts, previewLoopResult]
    split
    · rfl
    · next h =>
      simp only [not_or, not_le] at h
      rw [List.getLast?_cons, ih (q - 5) (by omega)]
      rfl

theorem previewLoopResult_stops (size : Nat → Nat) (q : Nat) :
    size (previewLoopResult size q) ≤ PREVIEW_MAX_BYTES ∨
      previewLoopResult size q ≤ 25 := by
  induction q using Nat.strong_induction_on with
  | _ q ih =>
    rw [previewLoopResult]
    split
    · assumption
    · next h =>
      simp only [not_or, not_le] at h
      exact ih (q - 5) (by omega)

theorem previewAttempts_chain (size : Nat → Nat) (q : Nat) :
    List.Chain' (fun a b => b = a - 5 ∧ b < a) (previewAttempts size q) := by
  induction q using Nat.strong_induction_on with
  | _ q ih =>
    rw [previewAttempts]
    split
    · simp
    · next h =>
      simp only [not_or, not_le] at h
      rw [List.chain'_cons']
      refine ⟨?_, ih (q - 5) (by omega)⟩
      intro y hy
      rw [previewAttempts_head] at hy
      cases hy
      omega

theorem previewAttempts_dropLast (size : Nat → Nat) (q : Nat) :
    ∀ a ∈ (previewAttempts size q).dropLast,
      PREVIEW_MAX_BYTES < size a ∧ 25 < a := by
  induction q using Nat.strong_induction_on with
  | _ q ih =>
    rw [previewAttempts]
    split
    · simp
    · next h =>
      simp only [not_or, not_le] at h
      intro a ha
      rw [List.dropLast_cons_of_ne_nil (previewAttempts_ne_nil size (q - 5))] at ha
      rcases List.mem_cons.mp ha with rfl | ha
      · exact h
      · exact ih (q - 5) (by omega) a ha

theorem previewAttempts_length (size : Nat → Nat) (q : Nat) :
    (previewAttempts size q).length ≤ q / 5 + 1 := by
  induction q using Nat.strong_induction_on with
  | _ q ih =>
    rw [previewAttempts]
    split
    · simp
    · next h =>
      simp only [not_or, not_le] at h
      have := ih (q - 5) (by omega)
      have hdiv : (q - 5) / 5 + 1 ≤ q / 5 := by
        have h5 : (q - 5) / 5 + 1 = (q - 5 + 5) / 5 := by
          rw [Nat.add_div_right _ (by norm_num)]
        rw [h5, Nat.sub_add_cancel (by omega)]
      simp only [List.length_cons]
      omega

/-- C8: the preview re-encode loop terminates for every encoder: starting at
quality 95 it attempts a nonempty, strictly decreasing (by exactly 5)
sequence of at most 20 qualities; the final quality satisfies the stop
condition `size ≤ PREVIEW_MAX_BYTES ∨ quality ≤ 25`, and every earlier
attempt satisfies neither disjunct (the loop stops exactly at the stop
condition). -/
theorem preview_loop_correct (size : Nat → Nat) :
    previewAttempts size 95 ≠ [] ∧
    List.Chain' (fun a b => b = a - 5 ∧ b < a) (previewAttempts size 95) ∧
    (previewAttempts size 95).getLast? = some (previewLoopResult size 95) ∧
    (size (previewLoopResult size 95) ≤ PREVIEW_MAX_BYTES ∨
      previewLoopResult size 95 ≤ 25) ∧
    (∀ a ∈ (previewAttempts size 95).dropLast,
      PREVIEW_MAX_BYTES < size a ∧ 25 < a) ∧
    (previewAttempts size 95).length ≤ 20 :=
  ⟨previewAttempts_ne_nil size 95, previewAttempts_chain size 95,
    previewAttempts_getLast size 95, previewLoopResult_stops size 95,
    previewAttempts_dropLast size 95,
    le_trans (previewAttempts_length size 95) (by norm_num)⟩

/-- Witness for `preview_loop_correct`: the constant encoder of size 0 stops
immediately at quality 95. -/
theorem preview_loop_correct_witness :
    previewAttempts (fun _ => 0) 95 ≠ [] ∧
    List.Chain' (fun a b => b = a - 5 ∧ b < a) (previewAttempts (fun _ => 0) 95) ∧
    (previewAttempts (fun _ => 0) 95).getLast? =
      some (previewLoopResult (fun _ => 0) 95) ∧
    ((fun _ => 0 : Nat → Nat) (previewLoopResult (fun _ => 0) 95) ≤ PREVIEW_MAX_BYTES ∨
      previewLoopResult (fun _ => 0) 95 ≤ 25) ∧
    (∀ a ∈ (previewAttempts (fun _ => 0) 95).dropLast,
      PREVIEW_MAX_BYTES < (fun _ => 0 : Nat → Nat) a ∧ 25 < a) ∧
    (previewAttempts (fun _ => 0) 95).length ≤ 20 :=
  preview_loop_correct (fun _ => 0)

/-! ## Finalisation (`services/finalise_service.py`)

`finalise_artwork(slug, metadata)` sanitizes the slug, raises
`FileNotFoundError` (before its first write) if the processed artwork or any
of the 9 numbered mockups is missing, copies the artwork into the finalised
root, generates the preview unless one already exists, and commits the
registry record last (`_update_master_paths`).  The operation is embedded as
a function returning either the error (the `str(path)` argument of the
raised `FileNotFoundError`) or the ordered list of primitive steps it
performs; the error is returned before any step because in the source every
`raise` precedes the first write.  `enc c q` abstracts the JPEG encoding of
image content `c` at quality `q` after the fixed-width resize. -/

/-- `path.with_suffix(path.suffix + ".tmp")` for the temp-then-rename writes
(the suffix is re-appended, so this is plain concatenation). -/
def tmpPath (p : String) : String := p ++ ".tmp"

/-- The four metadata fields `_update_master_paths` reads with
`metadata.get(key, "")` (defaults already applied). -/
structure Metadata where
  title : String
  description : String
  primary_colour : String
  secondary_colour : String
deriving DecidableEq

/-- Steps of `_generate_preview source dest`: the loop writes the `.tmp` file
at each attempted quality, then atomically renames it over `dest`. -/
def generate_preview_steps (enc : Nat → String) (dest : String) : List Step :=
  ((previewAttempts (fun q => (enc q).length) 95).map
    (fun q => Step.write (tmpPath dest) (enc q))) ++
  [Step.move (tmpPath dest) dest]

/-- The mockup-loop of `finalise_artwork` (`for i in range(1, 10)`): the
first `i` starting at `i` with `rem` slots left whose mockup is missing. -/
def firstMissingMockupAux (fs : FS) (slug : String) : Nat → Nat → Option String
  | 0, _ => none
  | rem + 1, i =>
      if ¬ fs.exists? (mockup_path slug i) then some (mockup_path slug i)
      else firstMissingMockupAux fs slug rem (i + 1)

/-- The first missing prerequisite of finalisation, in check order: the
processed main artwork, else the first of the 9 numbered mockups that does
not exist (`None` when all prerequisites are present). -/
def firstMissingFinalisePrereq (fs : FS) (slug : String) : Option String :=
  if ¬ fs.exists? (processed_artwork_path slug) then some (processed_artwork_path slug)
  else firstMissingMockupAux fs slug 9 1

/-- The registry record committed by `finalise_service._update_master_paths`:
image, preview, the 9 mockup paths, the metadata fields, status "finalised". -/
def finaliseRecord (slug : String) (md : Metadata) : RegRecord :=
  { paths := finalised_artwork_path slug :: preview_path slug ::
      (List.range 9).map (fun k => mockup_path slug (k + 1)),
    title := md.title, description := md.description,
    primary_colour := md.primary_colour, secondary_colour := md.secondary_colour,
    status := "finalised" }

/-- `finalise_service.finalise_artwork`. -/
def finalise_artwork (enc : String → Nat → String) (fs : FS) (slug0 : String)
    (md : Metadata) : Except String (List Step) :=
  let slug := sanitize_slug slug0
  match firstMissingFinalisePrereq fs slug with
  | some p => .error p
  | none =>
      let content := (fs (processed_artwork_path slug)).getD ""
      .ok ([Step.write (finalised_artwork_path slug) content] ++
        (if fs.exists? (preview_path slug) then []
         else generate_preview_steps (enc content) (preview_path slug)) ++
        [Step.reg slug (finaliseRecord slug md)])

/-- Run the steps of a successful operation; a raised error aborts with the
state untouched (in the source every `raise` precedes the first write). -/
def runExcept {ε : Type} (sys : Sys) : Except ε (List Step) → Sys
  | .error _ => sys
  | .ok steps => sys.run steps

/-! ## Mockup generation (`scripts/generate_composites.py`)

`generate(slug)` opens the processed artwork (returning with no writes when
it is missing), takes the first 9 templates of the sorted template-directory
glob, and for each (1-indexed) template: skips the slot if its mockup file
already exists, skips with a warning if the template's pixel size differs
from the artwork's, and otherwise composites and saves the mockup.
`templates` models the sorted glob result (pixel size and content of each
template file), `imgSize` the pixel size of decoded image content, and
`comp t a` the composite of artwork `a` pasted onto template `t`. -/

/-- One template file: its pixel size and content. -/
structure Template where
  size : Nat × Nat
  content : String

/-- The per-slot loop of `generate` (`for idx, tmpl in enumerate(templates, 1)`),
returning the updated file system and the list of mockup paths written. -/
def generateSlots (imgSize : String → Nat × Nat) (comp : String → String → String)
    (art : String) (slug : String) : Nat → List Template → FS → FS × List String
  | _, [], fs => (fs, [])
  | idx, t :: rest, fs =>
      if fs.exists? (mockup_path slug idx) then
        generateSlots imgSize comp art slug (idx + 1) rest fs
      else if t.size ≠ imgSize art then
        generateSlots imgSize comp art slug (idx + 1) rest fs
      else
        let out := mockup_path slug idx
        let r := generateSlots imgSize comp art slug (idx + 1) rest
          (fs.write out (comp t.content art))
        (r.1, out :: r.2)

/-- `scripts/generate_composites.generate`. -/
def generate (imgSize : String → Nat × Nat) (comp : String → String → String)
    (templates : List Template) (fs : FS) (slug0 : String) : FS × List String :=
  let slug := sanitize_slug slug0
  if ¬ fs.exists? (processed_artwork_path slug) then (fs, [])
  else
    let art := (fs (processed_artwork_path slug)).getD ""
    generateSlots imgSize comp art slug 1 (templates.take 9) fs

/-! ## Analysis transition (`services/artwork_analysis_service.py`)

`analyze_artwork(rel_path, src_path, …)` validates existence and scope of
`src_path` (the scope guard is the literal `str(src_path).startswith(str(root))`
of the source), validates `rel_path` (not absolute, no `..` component),
derives the slug (slug hint, else first component of `rel_path`, else the
sanitized filename stem with the `-ANALYSE` marker removed), and then: moves
the ANALYSE image to the canonical processed path (removing a pre-existing
file there first), runs the analysis (the OpenAI branch is gated on an
absent-by-default API key and falls back to deterministic mock analysis that
echoes the source bytes; the fallback is what is modelled), atomically writes
the analysis JSON, writes the auxiliary image, and commits the registry
record last.  Paths are modelled as already resolved. -/

/-- Python `str.startswith` — a plain string-prefix test. -/
def startsWithS (s root : String) : Bool := root.data.isPrefixOf s.data

/-- Split a character list on a separator (backbone of `PurePath.parts`). -/
def splitOnChar (sep : Char) : List Char → List (List Char)
  | [] => [[]]
  | c :: rest =>
      let r := splitOnChar sep rest
      if c = sep then [] :: r
      else
        match r with
        | [] => [[c]]
        | h :: t => (c :: h) :: t

/-- `PurePath(rel).parts` for a relative POSIX path: the `/`-separated
components, with empty and `.` components dropped. -/
def pathParts (rel : String) : List String :=
  ((splitOnChar '/' rel.data).filter (fun c => ¬ c.isEmpty ∧ c ≠ ['.'])).map String.mk

/-- `pathlib.PurePath.stem`: the final suffix (from the last dot, when present
and not leading) removed. -/
def stemOf (name : String) : String :=
  let r := name.data.reverse.dropWhile (fun c => ¬ c = '.')
  match r with
  | [] => name
  | _ :: rest => if rest.isEmpty then name else String.mk rest.reverse

/-- Python `str.replace(pat, "")`: delete every (non-overlapping, leftmost)
occurrence of `pat`; the first argument is structural fuel (the scan never
needs more steps than the length of the list). -/
def replaceSubAux (pat : List Char) : Nat → List Char → List Char
  | _, [] => []
  | 0, l => l
  | fuel + 1, c :: rest =>
      if ¬ pat.isEmpty ∧ pat.isPrefixOf (c :: rest) then
        replaceSubAux pat fuel ((c :: rest).drop pat.length)
      else c :: replaceSubAux pat fuel rest

/-- Python `s.replace(pat, "")`. -/
def deleteSub (pat s : String) : String :=
  String.mk (replaceSubAux pat.data s.data.length s.data)

/-- The distinct raise sites of `analyze_artwork` (the first three raise
`FileNotFoundError`, distinguished by their log line; the fourth raises
`ValueError`). -/
inductive AnalyzeError where
  | notFound (p : String)
  | outOfScope (p : String)
  | invalidRel (p : String)
  | noSlug (p : String)
deriving DecidableEq

/-- The mock analysis JSON of `_perform_analysis`'s fallback branch
(`{"provider": "mock", …}`), opaque content. -/
def MOCK_ANALYSIS_JSON : String := "provider-mock-analysis"

/-- The registry record committed by the analysis step
(`artwork_analysis_service._update_master_paths`): image, analysis JSON,
auxiliary image (no metadata keys; absent keys modelled as `""`). -/
def analyzeRecord (slug : String) : RegRecord :=
  { paths := [processed_artwork_path slug, processed_analysis_path slug,
      processed_openai_path slug],
    title := "", description := "", primary_colour := "",
    secondary_colour := "", status := "" }

/-- `filename = filename_hint or rel.name` (Python `or`: an empty hint falls
back to the final component of `rel_path`). -/
def analyzeFilename (rel_path : String) (filename_hint : Option String) : String :=
  match filename_hint with
  | some f => if ¬ f.isEmpty then f else ((pathParts rel_path).getLast?).getD ""
  | none => ((pathParts rel_path).getLast?).getD ""

/-- `slug = slug_hint or (rel.parts[0] if rel.parts else sanitize_slug(stem_base))`
where `stem_base` is the filename stem with the `-ANALYSE`/`-analyse` markers
removed. -/
def analyzeSlug0 (rel_path : String) (slug_hint filename_hint : Option String) :
    String :=
  let stem_base := deleteSub "-analyse"
    (deleteSub "-ANALYSE" (stemOf (analyzeFilename rel_path filename_hint)))
  match slug_hint with
  | some s =>
      if ¬ s.isEmpty then s
      else match (pathParts rel_path).head? with
        | some p => p
        | none => sanitize_slug stem_base
  | none =>
      match (pathParts rel_path).head? with
      | some p => p
      | none => sanitize_slug stem_base

/-- The steps of a successful `analyze_artwork` run for the derived `slug`:
remove a pre-existing processed image, move the ANALYSE image to the
canonical processed path, atomically write the analysis JSON
(`_safe_write_json`: temp then rename), write the auxiliary image, commit the
registry record. -/
def analyzeSteps (fs : FS) (slug src_path : String) : List Step :=
  (if fs.exists? (processed_artwork_path slug)
   then [Step.remove (processed_artwork_path slug)] else []) ++
  [Step.move src_path (processed_artwork_path slug),
   Step.write (tmpPath (processed_analysis_path slug)) MOCK_ANALYSIS_JSON,
   Step.move (tmpPath (processed_analysis_path slug)) (processed_analysis_path slug),
   Step.write (processed_openai_path slug) ((fs src_path).getD ""),
   Step.reg slug (analyzeRecord slug)]

/-- `artwork_analysis_service.analyze_artwork`. -/
def analyze_artwork (fs : FS) (rel_path : String) (src_path : String)
    (slug_hint filename_hint : Option String) : Except AnalyzeError (List Step) :=
  if ¬ fs.exists? src_path then .error (.notFound src_path)
  else if ¬ startsWithS src_path UNANALYSED_ARTWORK_DIR then
    .error (.outOfScope src_path)
  else if rel_path.data.head? = some '/' ∨ (pathParts rel_path).contains ".." then
    .error (.invalidRel rel_path)
  else if (analyzeSlug0 rel_path slug_hint filename_hint).isEmpty then
    .error (.noSlug rel_path)
  else
    analyzeSteps fs (sanitize_slug (analyzeSlug0 rel_path slug_hint filename_hint))
      src_path |> .ok

/-! ## File-system and run lemmas -/

@[simp] theorem FS.exists?_write (fs : FS) (p c q : String) :
    (fs.write p c).exists? q = if q = p then true else fs.exists? q := by
  rw [FS.exists?, FS.write]
  split <;> rfl

@[simp] theorem FS.exists?_remove (fs : FS) (p q : String) :
    (fs.remove p).exists? q = if q = p then false else fs.exists? q := by
  rw [FS.exists?, FS.remove]
  split <;> rfl

@[simp] theorem FS.exists?_move (fs : FS) (s d q : String) :
    (fs.move s d).exists? q =
      if q = d then fs.exists? s else if q = s then false else fs.exists? q := by
  rw [FS.exists?, FS.move]
  split
  · rfl
  · split <;> rfl

theorem Sys.run_append (sys : Sys) (l₁ l₂ : List Step) :
    sys.run (l₁ ++ l₂) = (sys.run l₁).run l₂ := by
  induction l₁ generalizing sys with
  | nil => rfl
  | cons s rest ih => rw [List.cons_append, Sys.run, Sys.run, ih]

theorem run_writeList_fs_ne {α : Type} (t : String) (f : α → String) (cs : List α)
    (sys : Sys) (p : String) (hp : p ≠ t) :
    ((sys.run (cs.map (fun c => Step.write t (f c)))).fs) p = sys.fs p := by
  induction cs generalizing sys with
  | nil => rfl
  | cons c rest ih =>
    rw [List.map_cons, Sys.run, ih]
    show (sys.fs.write t (f c)) p = sys.fs p
    rw [FS.write, if_neg hp]

theorem run_writeList_reg {α : Type} (t : String) (f : α → String) (cs : List α)
    (sys : Sys) :
    (sys.run (cs.map (fun c => Step.write t (f c)))).reg = sys.reg := by
  induction cs generalizing sys with
  | nil => rfl
  | cons c rest ih => rw [List.map_cons, Sys.run, ih]; rfl

theorem run_writeList_exists_self {α : Type} (t : String) (f : α → String)
    (cs : List α) (sys : Sys) (h : cs ≠ []) :
    ((sys.run (cs.map (fun c => Step.write t (f c)))).fs.exists? t) = true := by
  induction cs generalizing sys with
  | nil => exact absurd rfl h
  | cons c rest ih =>
    rw [List.map_cons, Sys.run]
    cases rest with
    | nil =>
      show ((sys.fs.write t (f c)).exists? t) = true
      rw [FS.exists?_write, if_pos rfl]
    | cons c2 r2 => exact ih _ (by simp)

theorem run_gen_preview_exists (enc : Nat → String) (dest : String) (sys : Sys)
    (p : String) (hp : p ≠ tmpPath dest) :
    ((sys.run (generate_preview_steps enc dest)).fs.exists? p) =
      if p = dest then true else sys.fs.exists? p := by
  rw [generate_preview_steps, Sys.run_append]
  set sysW := sys.run ((previewAttempts (fun q => (enc q).length) 95).map
    (fun q => Step.write (tmpPath dest) (enc q))) with hW
  show ((sysW.fs.move (tmpPath dest) dest).exists? p) = _
  rw [FS.exists?_move]
  by_cases hd : p = dest
  · rw [if_pos hd, if_pos hd, hW]
    exact run_writeList_exists_self (tmpPath dest) enc _ sys
      (previewAttempts_ne_nil _ 95)
  · rw [if_neg hd, if_neg hp, if_neg hd, hW, FS.exists?, FS.exists?,
      run_writeList_fs_ne (tmpPath dest) enc _ sys p hp]

theorem run_gen_preview_reg (enc : Nat → String) (dest : String) (sys : Sys) :
    (sys.run (generate_preview_steps enc dest)).reg = sys.reg := by
  rw [generate_preview_steps, Sys.run_append]
  show ((sys.run _).apply (Step.move (tmpPath dest) dest)).reg = sys.reg
  rw [show ∀ s : Sys, (s.apply (Step.move (tmpPath dest) dest)).reg = s.reg
        from fun _ => rfl,
    run_writeList_reg (tmpPath dest) enc _ sys]

theorem gen_preview_steps_not_reg (enc : Nat → String) (dest : String) :
    ∀ x ∈ generate_preview_steps enc dest, x.isReg = false := by
  intro x hx
  rw [generate_preview_steps, List.mem_append] at hx
  rcases hx with hx | hx
  · rcases List.mem_map.mp hx with ⟨q, _, rfl⟩
    rfl
  · rcases List.mem_singleton.mp hx with rfl
    rfl

/-! ## Path-shape lemmas -/

theorem jpg_last (s : String) : (s ++ ".jpg").data.getLast? = some 'g' :=
  last_char_append s ".jpg" (by decide)

theorem tmp_last (s : String) : (tmpPath s).data.getLast? = some 'p' :=
  last_char_append s ".tmp" (by decide)

theorem processed_artwork_path_last (slug : String) :
    (processed_artwork_path slug).data.getLast? = some 'g' := jpg_last _

theorem finalised_artwork_path_last (slug : String) :
    (finalised_artwork_path slug).data.getLast? = some 'g' := jpg_last _

theorem preview_path_last (slug : String) :
    (preview_path slug).data.getLast? = some 'g' :=
  last_char_append _ "-preview.jpg" (by decide)

theorem mockup_path_last (slug : String) (i : Nat) :
    (mockup_path slug i).data.getLast? = some 'g' := jpg_last _

theorem processed_analysis_path_last (slug : String) :
    (processed_analysis_path slug).data.getLast? = some 'n' :=
  last_char_append _ "-analysis.json" (by decide)

theorem processed_openai_path_last (slug : String) :
    (processed_openai_path slug).data.getLast? = some 'g' :=
  last_char_append _ "-openai.jpg" (by decide)

/-- A `.jpg`-final path is never a `.tmp` path. -/
theorem jpg_ne_tmp {s : String} (hs : s.data.getLast? = some 'g') (t : String) :
    s ≠ tmpPath t :=
  ne_of_last_char hs (tmp_last t) (by decide)

theorem first_char_append {s : String} (t : String) {a : Char}
    (hs : s.data.head? = some a) : (s ++ t).data.head? = some a := by
  rw [data_append']
  cases h : s.data with
  | nil => rw [h] at hs; exact absurd hs (by simp)
  | cons c rest => rw [h] at hs; rw [List.cons_append, List.head?_cons]; exact hs

/-- Two strings with distinct first characters are distinct. -/
theorem ne_of_first_char {s t : String} {a b : Char}
    (hs : s.data.head? = some a) (ht : t.data.head? = some b) (hab : a ≠ b) :
    s ≠ t := by
  intro h
  rw [h, ht] at hs
  exact hab (Option.some_injective _ hs.symm)

/-- A path accepted by the `startswith` scope guard begins with `'u'`
(the first character of the unanalysed root). -/
theorem head_of_scope_guard {s : String}
    (h : startsWithS s UNANALYSED_ARTWORK_DIR = true) : s.data.head? = some 'u' := by
  rw [startsWithS] at h
  rcases List.isPrefixOf_iff_prefix.mp h with ⟨t, ht⟩
  rw [← ht]
  rfl

theorem processed_artwork_path_head (slug : String) :
    (processed_artwork_path slug).data.head? = some 'p' :=
  first_char_append _ (first_char_append _ (first_char_append _
    (first_char_append _ (by decide))))

/-! ## Prerequisite-check lemmas for finalisation -/

theorem firstMissingMockupAux_none (fs : FS) (slug : String) :
    ∀ rem i, firstMissingMockupAux fs slug rem i = none →
      ∀ j, i ≤ j → j < i + rem → fs.exists? (mockup_path slug j) = true := by
  intro rem
  induction rem with
  | zero => intro i _ j _ _; omega
  | succ rem ih =>
    intro i h j hij hj
    rw [firstMissingMockupAux] at h
    split at h
    · exact absurd h (by simp)
    · next hex =>
      rcases Nat.eq_or_lt_of_le hij with rfl | hlt
      · simpa using hex
      · exact ih (i + 1) h j hlt (by omega)

theorem firstMissingMockupAux_isSome (fs : FS) (slug : String) :
    ∀ rem i j, i ≤ j → j < i + rem → fs.exists? (mockup_path slug j) = false →
      firstMissingMockupAux fs slug rem i ≠ none := by
  intro rem i j hij hj hmiss h
  have := firstMissingMockupAux_none fs slug rem i h j hij hj
  rw [this] at hmiss
  cases hmiss

theorem firstMissingMockupAux_some (fs : FS) (slug : String) :
    ∀ rem i p, firstMissingMockupAux fs slug rem i = some p →
      ∃ j, i ≤ j ∧ j < i + rem ∧ p = mockup_path slug j ∧
        fs.exists? (mockup_path slug j) = false ∧
        ∀ k, i ≤ k → k < j → fs.exists? (mockup_path slug k) = true := by
  intro rem
  induction rem with
  | zero => intro i p h; exact absurd h (by rw [firstMissingMockupAux]; simp)
  | succ rem ih =>
    intro i p h
    rw [firstMissingMockupAux] at h
    split at h
    · next hex =>
      refine ⟨i, le_rfl, by omega, (Option.some_injective _ h).symm, ?_, ?_⟩
      · simpa using hex
      · intro k hk hki; omega
    · next hex =>
      rcases ih (i + 1) p h with ⟨j, hj1, hj2, hj3, hj4, hj5⟩
      refine ⟨j, by omega, by omega, hj3, hj4, ?_⟩
      intro k hk hkj
      rcases Nat.eq_or_lt_of_le hk with rfl | hlt
      · simpa using hex
      · exact hj5 k hlt hkj

/-- C2: if the processed main artwork or any of the 9 numbered mockups of the
(sanitized) slug is missing, `finalise_artwork` fails with the path of the
first missing required file (the processed artwork is checked first, then the
mockups in order 1–9), the check happens before any copy, and the state —
finalised directory and registry alike — is completely unchanged. -/
theorem finalise_missing_prereq (enc : String → Nat → String) (fs : FS)
    (slug0 : String) (md : Metadata)
    (hmiss : fs.exists? (processed_artwork_path (sanitize_slug slug0)) = false ∨
      ∃ i, 1 ≤ i ∧ i < 10 ∧
        fs.exists? (mockup_path (sanitize_slug slug0) i) = false) :
    ∃ p, finalise_artwork enc fs slug0 md = .error p ∧
      (∀ sys : Sys, runExcept sys (finalise_artwork enc fs slug0 md) = sys) ∧
      fs.exists? p = false ∧
      ((fs.exists? (processed_artwork_path (sanitize_slug slug0)) = false ∧
          p = processed_artwork_path (sanitize_slug slug0)) ∨
        (fs.exists? (processed_artwork_path (sanitize_slug slug0)) = true ∧
          ∃ i, 1 ≤ i ∧ i < 10 ∧ p = mockup_path (sanitize_slug slug0) i ∧
            fs.exists? (mockup_path (sanitize_slug slug0) i) = false ∧
            ∀ j, 1 ≤ j → j < i →
              fs.exists? (mockup_path (sanitize_slug slug0) j) = true)) := by
  have herr : ∃ p, firstMissingFinalisePrereq fs (sanitize_slug slug0) = some p := by
    rw [firstMissingFinalisePrereq]
    by_cases hsrc : fs.exists? (processed_artwork_path (sanitize_slug slug0)) = true
    · rw [if_neg (by simp [hsrc])]
      rcases hmiss with hmiss | ⟨i, hi1, hi2, hi3⟩
      · rw [hsrc] at hmiss; cases hmiss
      · rcases h : firstMissingMockupAux fs (sanitize_slug slug0) 9 1 with _ | p
        · exact absurd h
            (firstMissingMockupAux_isSome fs _ 9 1 i hi1 (by omega) hi3)
        · exact ⟨p, rfl⟩
    · rw [if_pos (by simpa using hsrc)]
      exact ⟨_, rfl⟩
  rcases herr with ⟨p, hp⟩
  have hfin : finalise_artwork enc fs slug0 md = .error p := by
    rw [finalise_artwork]
    rw [hp]
  refine ⟨p, hfin, fun sys => by rw [hfin]; rfl, ?_, ?_⟩
  · rw [firstMissingFinalisePrereq] at hp
    split at hp
    · next h =>
      rw [← Option.some_injective _ hp]
      simpa using h
    · rcases firstMissingMockupAux_some fs _ 9 1 p hp with ⟨j, _, _, rfl, hj4, _⟩
      exact hj4
  · rw [firstMissingFinalisePrereq] at hp
    split at hp
    · next h =>
      exact Or.inl ⟨by simpa using h, (Option.some_injective _ hp).symm⟩
    · next h =>
      rcases firstMissingMockupAux_some fs _ 9 1 p hp with ⟨j, hj1, hj2, hj3, hj4, hj5⟩
      refine Or.inr ⟨by simpa using h, j, hj1, by omega, hj3, hj4, ?_⟩
      intro k hk hkj
      exact hj5 k hk hkj

/-- Appending distinct suffixes to a common prefix yields distinct strings. -/
theorem ne_of_append_suffix_ne (s : String) {a b : String} (h : a.data ≠ b.data) :
    s ++ a ≠ s ++ b := by
  intro heq
  exact h (List.append_cancel_left (by rw [← data_append', ← data_append', heq]))

theorem Sys.run_nil (sys : Sys) : sys.run [] = sys := rfl

theorem run_reg_fs (sys : Sys) (sl : String) (rec : RegRecord) :
    (sys.run [Step.reg sl rec]).fs = sys.fs := rfl

theorem run_write_fs (sys : Sys) (p c : String) :
    (sys.run [Step.write p c]).fs = sys.fs.write p c := rfl

/-- The file system after the steps of a successful `analyze_artwork` run. -/
theorem run_analyzeSteps_fs (sys : Sys) (slug src : String) :
    (sys.run (analyzeSteps sys.fs slug src)).fs =
      (((((if sys.fs.exists? (processed_artwork_path slug) = true
            then sys.fs.remove (processed_artwork_path slug) else sys.fs).move src
          (processed_artwork_path slug)).write
          (tmpPath (processed_analysis_path slug)) MOCK_ANALYSIS_JSON).move
          (tmpPath (processed_analysis_path slug)) (processed_analysis_path slug)).write
          (processed_openai_path slug) ((sys.fs src).getD "")) := by
  rw [analyzeSteps]
  by_cases hpi : sys.fs.exists? (processed_artwork_path slug) = true
  · rw [if_pos hpi, if_pos hpi]
    rfl
  · rw [if_neg hpi, if_neg hpi]
    rfl

/-- C1: for both stage transitions (`analyze_artwork`: unanalysed →
processed; `finalise_artwork`: processed → finalised) the registry commit is
the last step of the successful trace — every earlier step is a plain file
operation — and every path stored in the committed registry record refers to
a file that exists once the trace has run. -/
theorem transitions_registry_last_and_paths_exist
    (enc : String → Nat → String) (slug0 : String) (md : Metadata)
    (rel src : String) (sh fh : Option String) (sys : Sys) :
    (∀ steps, finalise_artwork enc sys.fs slug0 md = .ok steps →
      ∃ pre, steps = pre ++ [Step.reg (sanitize_slug slug0)
          (finaliseRecord (sanitize_slug slug0) md)] ∧
        (∀ x ∈ pre, x.isReg = false) ∧
        (∀ p ∈ (finaliseRecord (sanitize_slug slug0) md).paths,
          (sys.run steps).fs.exists? p = true)) ∧
    (∀ steps, analyze_artwork sys.fs rel src sh fh = .ok steps →
      ∃ pre s, steps = pre ++ [Step.reg s (analyzeRecord s)] ∧
        (∀ x ∈ pre, x.isReg = false) ∧
        (∀ p ∈ (analyzeRecord s).paths,
          (sys.run steps).fs.exists? p = true)) := by
  constructor
  · intro steps h
    rw [finalise_artwork] at h
    rcases hch : firstMissingFinalisePrereq sys.fs (sanitize_slug slug0)
      with _ | p
    case some => rw [hch] at h; cases h
    rw [hch] at h
    injection h with h
    subst h
    have hsrc : sys.fs.exists? (processed_artwork_path (sanitize_slug slug0)) = true := by
      rw [firstMissingFinalisePrereq] at hch
      split at hch
      · cases hch
      · next hs => simpa using hs
    have hmu : ∀ j, 1 ≤ j → j < 10 →
        sys.fs.exists? (mockup_path (sanitize_slug slug0) j) = true := by
      rw [firstMissingFinalisePrereq] at hch
      split at hch
      · cases hch
      · intro j h1 h2
        exact firstMissingMockupAux_none _ _ 9 1 hch j h1 (by omega)
    refine ⟨[Step.write (finalised_artwork_path (sanitize_slug slug0))
        ((sys.fs (processed_artwork_path (sanitize_slug slug0))).getD "")] ++
        (if sys.fs.exists? (preview_path (sanitize_slug slug0)) = true then []
         else generate_preview_steps
           (enc ((sys.fs (processed_artwork_path (sanitize_slug slug0))).getD ""))
           (preview_path (sanitize_slug slug0))),
      rfl, ?_, ?_⟩
    · intro x hx
      rcases List.mem_append.mp hx with hx | hx
      · rcases List.mem_singleton.mp hx with rfl
        rfl
      · split at hx
        · cases hx
        · exact gen_preview_steps_not_reg _ _ x hx
    · intro p hp
      have hmem : p = finalised_artwork_path (sanitize_slug slug0) ∨
          p = preview_path (sanitize_slug slug0) ∨
          ∃ k, k < 9 ∧ p = mockup_path (sanitize_slug slug0) (k + 1) := by
        rw [finaliseRecord] at hp
        rcases List.mem_cons.mp hp with h1 | hp
        · exact Or.inl h1
        rcases List.mem_cons.mp hp with h1 | hp
        · exact Or.inr (Or.inl h1)
        rcases List.mem_map.mp hp with ⟨k, hk, rfl⟩
        exact Or.inr (Or.inr ⟨k, List.mem_range.mp hk, rfl⟩)
      rw [Sys.run_append, Sys.run_append, run_reg_fs]
      have hplast : p.data.getLast? = some 'g' := by
        rcases hmem with rfl | rfl | ⟨k, _, rfl⟩
        · exact finalised_artwork_path_last _
        · exact preview_path_last _
        · exact mockup_path_last _ _
      by_cases hpre : sys.fs.exists? (preview_path (sanitize_slug slug0)) = true
      · rw [if_pos hpre, Sys.run_nil, run_write_fs, FS.exists?_write]
        rcases hmem with rfl | rfl | ⟨k, hk, rfl⟩
        · rw [if_pos rfl]
        · split
          · rfl
          · exact hpre
        · split
          · rfl
          · exact hmu (k + 1) (by omega) (by omega)
      · rw [if_neg hpre,
          run_gen_preview_exists _ _ _ p (jpg_ne_tmp hplast _)]
        by_cases hppv : p = preview_path (sanitize_slug slug0)
        · rw [if_pos hppv]
        · rw [if_neg hppv, run_write_fs, FS.exists?_write]
          rcases hmem with rfl | rfl | ⟨k, hk, rfl⟩
          · rw [if_pos rfl]
          · exact absurd rfl hppv
          · split
            · rfl
            · exact hmu (k + 1) (by omega) (by omega)
  · intro steps h
    rw [analyze_artwork] at h
    by_cases hc1 : sys.fs.exists? src = true
    case neg => rw [if_pos hc1] at h; cases h
    rw [if_neg (not_not_intro hc1)] at h
    by_cases hc2 : startsWithS src UNANALYSED_ARTWORK_DIR = true
    case neg => rw [if_pos hc2] at h; cases h
    rw [if_neg (not_not_intro hc2)] at h
    by_cases hc3 : rel.data.head? = some '/' ∨ (pathParts rel).contains ".." = true
    case pos => rw [if_pos hc3] at h; cases h
    rw [if_neg hc3] at h
    by_cases hc4 : (analyzeSlug0 rel sh fh).isEmpty = true
    case pos => rw [if_pos hc4] at h; cases h
    rw [if_neg hc4] at h
    injection h with h
    subst h
    set s := sanitize_slug (analyzeSlug0 rel sh fh) with hs
    have hne_src_pi : src ≠ processed_artwork_path s :=
      ne_of_first_char (head_of_scope_guard hc2) (processed_artwork_path_head s)
        (by decide)
    have hne_pi_aj : processed_artwork_path s ≠ processed_analysis_path s :=
      ne_of_append_suffix_ne _ (by decide)
    have hne_pi_oa : processed_artwork_path s ≠ processed_openai_path s :=
      ne_of_append_suffix_ne _ (by decide)
    have hne_aj_oa : processed_analysis_path s ≠ processed_openai_path s :=
      ne_of_append_suffix_ne _ (by decide)
    have hne_pi_tmp : processed_artwork_path s ≠ tmpPath (processed_analysis_path s) :=
      jpg_ne_tmp (processed_artwork_path_last s) _
    have hne_aj_tmp : processed_analysis_path s ≠ tmpPath (processed_analysis_path s) :=
      ne_of_last_char (processed_analysis_path_last s) (tmp_last _) (by decide)
    have hne_oa_tmp : processed_openai_path s ≠ tmpPath (processed_analysis_path s) :=
      jpg_ne_tmp (processed_openai_path_last s) _
    refine ⟨(if sys.fs.exists? (processed_artwork_path s) = true
        then [Step.remove (processed_artwork_path s)] else []) ++
        [Step.move src (processed_artwork_path s),
         Step.write (tmpPath (processed_analysis_path s)) MOCK_ANALYSIS_JSON,
         Step.move (tmpPath (processed_analysis_path s)) (processed_analysis_path s),
         Step.write (processed_openai_path s) ((sys.fs src).getD "")],
      s, ?_, ?_, ?_⟩
    · rw [analyzeSteps, List.append_assoc]
      rfl
    · intro x hx
      rcases List.mem_append.mp hx with hx | hx
      · split at hx
        · rcases List.mem_singleton.mp hx with rfl
          rfl
        · cases hx
      · simp only [List.mem_cons, List.not_mem_nil, or_false] at hx
        rcases hx with rfl | rfl | rfl | rfl <;> rfl
    · intro p hp
      have hmem : p = processed_artwork_path s ∨ p = processed_analysis_path s ∨
          p = processed_openai_path s := by
        rw [analyzeRecord] at hp
        simpa using hp
      rw [run_analyzeSteps_fs]
      by_cases hpi : sys.fs.exists? (processed_artwork_path s) = true
      · rw [if_pos hpi]
        rcases hmem with rfl | rfl | rfl
        · rw [FS.exists?_write, if_neg hne_pi_oa, FS.exists?_move,
            if_neg hne_pi_aj, if_neg hne_pi_tmp, FS.exists?_write,
            if_neg hne_pi_tmp, FS.exists?_move, if_pos rfl, FS.exists?_remove,
            if_neg hne_src_pi]
          exact hc1
        · rw [FS.exists?_write, if_neg hne_aj_oa, FS.exists?_move, if_pos rfl,
            FS.exists?_write, if_pos rfl]
        · rw [FS.exists?_write, if_pos rfl]
      · rw [if_neg hpi]
        rcases hmem with rfl | rfl | rfl
        · rw [FS.exists?_write, if_neg hne_pi_oa, FS.exists?_move,
            if_neg hne_pi_aj, if_neg hne_pi_tmp, FS.exists?_write,
            if_neg hne_pi_tmp, FS.exists?_move, if_pos rfl]
          exact hc1
        · rw [FS.exists?_write, if_neg hne_aj_oa, FS.exists?_move, if_pos rfl,
            FS.exists?_write, if_pos rfl]
        · rw [FS.exists?_write, if_pos rfl]

/-! ## Value-level run lemmas -/

theorem run_move_fs (sys : Sys) (a b : String) :
    (sys.run [Step.move a b]).fs = sys.fs.move a b := rfl

theorem run_reg_reg (sys : Sys) (sl s' : String) (rec : RegRecord) :
    (sys.run [Step.reg sl rec]).reg s' = if s' = sl then some rec else sys.reg s' := rfl

theorem run_writeList_fs_self {α : Type} (t : String) (f : α → String)
    (cs : List α) (sys : Sys) (a : α) (h : cs.getLast? = some a) :
    ((sys.run (cs.map (fun c => Step.write t (f c)))).fs) t = some (f a) := by
  induction cs generalizing sys with
  | nil => cases h
  | cons c rest ih =>
    rw [List.map_cons, Sys.run]
    cases rest with
    | nil =>
      simp only [List.getLast?_singleton, Option.some_inj] at h
      show (sys.fs.write t (f c)) t = some (f a)
      rw [FS.write, if_pos rfl, h]
    | cons c2 r2 =>
      rw [List.getLast?_cons_cons] at h
      exact ih _ h

theorem run_gen_preview_fs_ne (enc : Nat → String) (dest : String) (sys : Sys)
    (p : String) (hp1 : p ≠ tmpPath dest) (hp2 : p ≠ dest) :
    (sys.run (generate_preview_steps enc dest)).fs p = sys.fs p := by
  rw [generate_preview_steps, Sys.run_append, run_move_fs]
  show (if p = dest then _ else if p = tmpPath dest then none else _) = _
  rw [if_neg hp2, if_neg hp1, run_writeList_fs_ne (tmpPath dest) enc _ sys p hp1]

theorem run_gen_preview_fs_dest (enc : Nat → String) (dest : String) (sys : Sys) :
    (sys.run (generate_preview_steps enc dest)).fs dest =
      some (enc (previewLoopResult (fun q => (enc q).length) 95)) := by
  rw [generate_preview_steps, Sys.run_append, run_move_fs]
  show (if dest = dest then
      (sys.run ((previewAttempts (fun q => (enc q).length) 95).map
        (fun q => Step.write (tmpPath dest) (enc q)))).fs (tmpPath dest)
    else _) = _
  rw [if_pos rfl]
  exact run_writeList_fs_self (tmpPath dest) enc _ sys _
    (previewAttempts_getLast _ 95)

theorem firstMissingMockupAux_eq_none (fs : FS) (slug : String) :
    ∀ rem i, (∀ j, i ≤ j → j < i + rem → fs.exists? (mockup_path slug j) = true) →
      firstMissingMockupAux fs slug rem i = none := by
  intro rem
  induction rem with
  | zero => intro i _; rfl
  | succ rem ih =>
    intro i h
    rw [firstMissingMockupAux,
      if_neg (by simp [h i le_rfl (by omega)]),
      ih (i + 1) (fun j h1 h2 => h j (by omega) (by omega))]

/-- C10: when the prerequisites hold, `finalise_artwork` succeeds; the
finalised artwork copy and the registry record are always written, and the
preview is left byte-for-byte unchanged when one already exists — a fresh
preview (encoded at the loop's final quality) is generated only for a slug
with no existing preview. -/
theorem finalise_preview_idempotent
    (enc : String → Nat → String) (slug0 : String) (md : Metadata) (sys : Sys)
    (hsrc : sys.fs.exists? (processed_artwork_path (sanitize_slug slug0)) = true)
    (hmu : ∀ i, 1 ≤ i → i < 10 →
      sys.fs.exists? (mockup_path (sanitize_slug slug0) i) = true) :
    ∃ steps, finalise_artwork enc sys.fs slug0 md = .ok steps ∧
      (sys.run steps).fs (finalised_artwork_path (sanitize_slug slug0)) =
        some ((sys.fs (processed_artwork_path (sanitize_slug slug0))).getD "") ∧
      (sys.run steps).reg (sanitize_slug slug0) =
        some (finaliseRecord (sanitize_slug slug0) md) ∧
      (sys.fs.exists? (preview_path (sanitize_slug slug0)) = true →
        (sys.run steps).fs (preview_path (sanitize_slug slug0)) =
          sys.fs (preview_path (sanitize_slug slug0))) ∧
      (sys.fs.exists? (preview_path (sanitize_slug slug0)) = false →
        (sys.run steps).fs (preview_path (sanitize_slug slug0)) =
          some (enc ((sys.fs (processed_artwork_path (sanitize_slug slug0))).getD "")
            (previewLoopResult
              (fun q => (enc ((sys.fs (processed_artwork_path
                (sanitize_slug slug0))).getD "") q).length) 95))) := by
  have hnone : firstMissingFinalisePrereq sys.fs (sanitize_slug slug0) = none := by
    rw [firstMissingFinalisePrereq, if_neg (by simp [hsrc])]
    exact firstMissingMockupAux_eq_none _ _ 9 1 (fun j h1 h2 => hmu j h1 (by omega))
  have hne_prev_fin : preview_path (sanitize_slug slug0) ≠
      finalised_artwork_path (sanitize_slug slug0) :=
    ne_of_append_suffix_ne _ (by decide)
  have hne_fin_prev : finalised_artwork_path (sanitize_slug slug0) ≠
      preview_path (sanitize_slug slug0) := fun h => hne_prev_fin h.symm
  refine ⟨_, by rw [finalise_artwork, hnone], ?_, ?_, ?_, ?_⟩
  · rw [Sys.run_append, Sys.run_append, run_reg_fs]
    by_cases hpre : sys.fs.exists? (preview_path (sanitize_slug slug0)) = true
    · rw [if_pos hpre, Sys.run_nil, run_write_fs]
      show (if finalised_artwork_path (sanitize_slug slug0) =
          finalised_artwork_path (sanitize_slug slug0) then _ else _) = _
      rw [if_pos rfl]
    · rw [if_neg hpre, run_gen_preview_fs_ne _ _ _ _
        (jpg_ne_tmp (finalised_artwork_path_last _) _) hne_fin_prev, run_write_fs]
      show (if finalised_artwork_path (sanitize_slug slug0) =
          finalised_artwork_path (sanitize_slug slug0) then _ else _) = _
      rw [if_pos rfl]
  · rw [Sys.run_append, Sys.run_append]
    rw [run_reg_reg, if_pos rfl]
  · intro hpre
    rw [Sys.run_append, Sys.run_append, run_reg_fs, if_pos hpre, Sys.run_nil,
      run_write_fs]
    show (if preview_path (sanitize_slug slug0) =
        finalised_artwork_path (sanitize_slug slug0) then _ else _) = _
    rw [if_neg hne_prev_fin]
  · intro hpre
    rw [Sys.run_append, Sys.run_append, run_reg_fs,
      if_neg (by simp [hpre]), run_gen_preview_fs_dest]

/-! ## Path-traversal guard (C4) -/

/-- Is `p` strictly inside the directory `root` (what the spec means by "a
descendant of the unanalysed root")? -/
def isDescendantOf (p root : String) : Bool := (root ++ "/").data.isPrefixOf p.data

/-- A file system holding one existing file in a sibling directory whose name
shares the unanalysed root as a string prefix. -/
def evilFS : FS :=
  fun p => if p = "unanalysed-artwork-evil/pic.jpg" then some "IMG" else none

/-- C4 (failing input): the scope guard of `analyze_artwork` is the string
test `str(src_path).startswith(str(root))`; the existing file
`unanalysed-artwork-evil/pic.jpg` passes it although it is NOT a descendant
of the unanalysed root `unanalysed-artwork` (it lives in a sibling
directory), so the call is not rejected as out of scope: it succeeds and
moves the out-of-scope file — contradicting both the claim and the code's own
comment "Prevent escaping outside the UNANALYSED root". -/
theorem analyze_scope_guard_bypassed :
    startsWithS "unanalysed-artwork-evil/pic.jpg" UNANALYSED_ARTWORK_DIR = true ∧
    isDescendantOf "unanalysed-artwork-evil/pic.jpg" UNANALYSED_ARTWORK_DIR = false ∧
    analyze_artwork evilFS "pic/pic-ANALYSE.jpg" "unanalysed-artwork-evil/pic.jpg"
        none none =
      .ok [Step.move "unanalysed-artwork-evil/pic.jpg" (processed_artwork_path "pic"),
        Step.write (tmpPath (processed_analysis_path "pic")) MOCK_ANALYSIS_JSON,
        Step.move (tmpPath (processed_analysis_path "pic")) (processed_analysis_path "pic"),
        Step.write (processed_openai_path "pic") "IMG",
        Step.reg "pic" (analyzeRecord "pic")] ∧
    Step.move "unanalysed-artwork-evil/pic.jpg" (processed_artwork_path "pic") ∈
      [Step.move "unanalysed-artwork-evil/pic.jpg" (processed_artwork_path "pic"),
        Step.write (tmpPath (processed_analysis_path "pic")) MOCK_ANALYSIS_JSON,
        Step.move (tmpPath (processed_analysis_path "pic")) (processed_analysis_path "pic"),
        Step.write (processed_openai_path "pic") "IMG",
        Step.reg "pic" (analyzeRecord "pic")] :=
  ⟨by decide, by decide, rfl, List.mem_cons_self _ _⟩

/-! ## Mockup-slot lemmas (C7) -/

theorem slotDigits_inj {i j : Nat} (hi : i < 10) (hj : j < 10)
    (h : slotDigits i = slotDigits j) : i = j := by
  rw [slotDigits, if_pos hi, slotDigits, if_pos hj] at h
  have hd := congrArg String.data h
  simp only at hd
  have hc : digitChar i = digitChar j := by simpa using hd
  have h48 : (digitChar i).toNat = (digitChar j).toNat := congrArg Char.toNat hc
  rw [toNat_digitChar hi, toNat_digitChar hj] at h48
  omega

theorem mockup_path_inj (slug : String) {i j : Nat} (hi : i < 10) (hj : j < 10)
    (h : mockup_path slug i = mockup_path slug j) : i = j := by
  apply slotDigits_inj hi hj
  apply String.ext_data
  have hd := congrArg String.data h
  rw [mockup_path, mockup_path, data_append', data_append', data_append',
    data_append'] at hd
  exact List.append_cancel_left (List.append_cancel_right hd)

theorem mockup_path_ne (slug : String) {i j : Nat} (hi : i < 10) (hj : j < 10)
    (hij : i ≠ j) : mockup_path slug i ≠ mockup_path slug j :=
  fun h => hij (mockup_path_inj slug hi hj h)

theorem generateSlots_skip_all (imgSize : String → Nat × Nat)
    (comp : String → String → String) (art slug : String) :
    ∀ ts idx fs, (∀ k, k < ts.length →
        fs.exists? (mockup_path slug (idx + k)) = true) →
      generateSlots imgSize comp art slug idx ts fs = (fs, []) := by
  intro ts
  induction ts with
  | nil => intro idx fs _; rfl
  | cons t rest ih =>
    intro idx fs h
    rw [generateSlots,
      if_pos (by simpa using h 0 (by simp))]
    exact ih (idx + 1) fs (fun k hk => by
      have := h (k + 1) (by simpa using Nat.succ_lt_succ hk)
      rwa [show idx + (k + 1) = idx + 1 + k by omega] at this)

theorem generateSlots_write_all (imgSize : String → Nat × Nat)
    (comp : String → String → String) (art slug : String) :
    ∀ ts idx fs, 1 ≤ idx → idx + ts.length ≤ 10 →
      (∀ t ∈ ts, t.size = imgSize art) →
      (∀ k, k < ts.length → fs.exists? (mockup_path slug (idx + k)) = false) →
      (generateSlots imgSize comp art slug idx ts fs).2 =
        (List.range ts.length).map (fun k => mockup_path slug (idx + k)) ∧
      (∀ k, k < ts.length →
        ((generateSlots imgSize comp art slug idx ts fs).1).exists?
          (mockup_path slug (idx + k)) = true) ∧
      (∀ p, (∀ k, k < ts.length → p ≠ mockup_path slug (idx + k)) →
        (generateSlots imgSize comp art slug idx ts fs).1 p = fs p) := by
  intro ts
  induction ts with
  | nil =>
    intro idx fs _ _ _ _
    exact ⟨rfl, fun k hk => absurd hk (by simp), fun p _ => rfl⟩
  | cons t rest ih =>
    intro idx fs hidx hbound hsize hmiss
    simp only [List.length_cons] at hbound hmiss
    have h0 : fs.exists? (mockup_path slug idx) = false := by
      simpa using hmiss 0 (by omega)
    rw [generateSlots, if_neg (by simp [h0]),
      if_neg (not_not_intro (hsize t (List.mem_cons_self _ _)))]
    set fs' := fs.write (mockup_path slug idx) (comp t.content art) with hfs'
    have hmiss' : ∀ k, k < rest.length →
        fs'.exists? (mockup_path slug (idx + 1 + k)) = false := by
      intro k hk
      rw [hfs', FS.exists?_write,
        if_neg (mockup_path_ne slug (by omega) (by omega) (by omega))]
      have := hmiss (k + 1) (by omega)
      rwa [show idx + (k + 1) = idx + 1 + k by omega] at this
    rcases ih (idx + 1) fs' (by omega) (by omega)
      (fun u hu => hsize u (List.mem_cons_of_mem _ hu)) hmiss' with ⟨ih1, ih2, ih3⟩
    refine ⟨?_, ?_, ?_⟩
    · show mockup_path slug idx ::
        (generateSlots imgSize comp art slug (idx + 1) rest fs').2 = _
      rw [ih1, List.length_cons, List.range_succ_eq_map, List.map_cons,
        List.map_map, Nat.add_zero]
      refine congrArg₂ _ rfl (List.map_congr_left ?_)
      intro k _
      show mockup_path slug (idx + 1 + k) = mockup_path slug (idx + (k + 1))
      congr 1
      omega
    · intro k hk
      simp only [List.length_cons] at hk
      show ((generateSlots imgSize comp art slug (idx + 1) rest fs').1).exists?
        (mockup_path slug (idx + k)) = true
      rcases Nat.eq_zero_or_pos k with rfl | hpos
      · simp only [Nat.add_zero]
        rw [FS.exists?,
          ih3 (mockup_path slug idx)
            (fun k2 hk2 => mockup_path_ne slug (by omega) (by omega) (by omega)),
          hfs', FS.write, if_pos rfl]
        rfl
      · obtain ⟨j, rfl⟩ : ∃ j, k = j + 1 := ⟨k - 1, by omega⟩
        have := ih2 j (by omega)
        rwa [show idx + 1 + j = idx + (j + 1) by omega] at this
    · intro p hp
      simp only [List.length_cons] at hp
      show (generateSlots imgSize comp art slug (idx + 1) rest fs').1 p = fs p
      rw [ih3 p (fun k hk => by
          have := hp (k + 1) (by omega)
          rwa [show idx + (k + 1) = idx + 1 + k by omega] at this),
        hfs', FS.write,
        if_neg (by have := hp 0 (by omega); rwa [Nat.add_zero] at this)]

/-- C7: mockup generation is idempotent per slot — with the processed artwork
present and all 9 mockups already on disk, `generate` writes nothing and
returns the file system unchanged; with 9 correctly-sized templates and no
pre-existing mockups it writes exactly the 9 numbered mockup files. -/
theorem generate_mockups_idempotent (imgSize : String → Nat × Nat)
    (comp : String → String → String) (templates : List Template)
    (fs : FS) (slug0 : String)
    (hsrc : fs.exists? (processed_artwork_path (sanitize_slug slug0)) = true) :
    ((∀ i, 1 ≤ i → i < 10 →
        fs.exists? (mockup_path (sanitize_slug slug0) i) = true) →
      generate imgSize comp templates fs slug0 = (fs, [])) ∧
    (templates.length = 9 →
      (∀ t ∈ templates, t.size =
        imgSize ((fs (processed_artwork_path (sanitize_slug slug0))).getD "")) →
      (∀ i, 1 ≤ i → i < 10 →
        fs.exists? (mockup_path (sanitize_slug slug0) i) = false) →
      (generate imgSize comp templates fs slug0).2 =
        (List.range 9).map (fun k => mockup_path (sanitize_slug slug0) (k + 1)) ∧
      ((generate imgSize comp templates fs slug0).2).length = 9 ∧
      (∀ i, 1 ≤ i → i < 10 →
        ((generate imgSize comp templates fs slug0).1).exists?
          (mockup_path (sanitize_slug slug0) i) = true)) := by
  have htklen : (templates.take 9).length ≤ 9 := by
    rw [List.length_take]
    omega
  constructor
  · intro hall
    rw [generate, if_neg (by simp [hsrc])]
    exact generateSlots_skip_all imgSize comp _ _ (templates.take 9) 1 fs
      (fun k hk => hall (1 + k) (by omega) (by omega))
  · intro hlen hsize hnone
    rw [generate, if_neg (by simp [hsrc])]
    have htake : templates.take 9 = templates :=
      List.take_of_length_le (by omega)
    rw [htake]
    rcases generateSlots_write_all imgSize comp _ _ templates 1 fs
      (by omega) (by omega) hsize
      (fun k hk => hnone (1 + k) (by omega) (by omega)) with ⟨h1, h2, h3⟩
    refine ⟨?_, ?_, ?_⟩
    · rw [h1, hlen]
      refine List.map_congr_left ?_
      intro k _
      congr 1
      omega
    · rw [h1]
      simp [hlen]
    · intro i h1i h10
      have := h2 (i - 1) (by omega)
      rwa [show 1 + (i - 1) = i by omega] at this

/-! ## Integrity validator (`tools/validate_sku_integrity.py`)

`validate(root)` first reports the project marker (`.env`) as missing when it
is absent at the root, then aggregates `check_unanalysed` over
`art-processing/unanalysed-artwork` and `check_processed` over
`art-processing/processed-artwork`, in that order.  Directory listings are
modelled structurally (entry order = `iterdir` order); a listing of `none`
models a stage directory that does not exist (both checks return no errors
then). -/

/-- A directory entry: a plain file or a sub-directory. -/
inductive Entry where
  | file (name : String)
  | dir (name : String)
deriving DecidableEq

/-- The entry's name. -/
def Entry.name : Entry → String
  | .file n => n
  | .dir n => n

/-- `Path.is_file`. -/
def Entry.isFile : Entry → Bool
  | .file _ => true
  | .dir _ => false

/-- Python `str.endswith`. -/
def endsWithS (s sfx : String) : Bool := sfx.data.reverse.isPrefixOf s.data.reverse

/-- Python `pat in s` (substring test) on character lists. -/
def isInfixChars (pat : List Char) : List Char → Bool
  | [] => pat.isEmpty
  | c :: rest => pat.isPrefixOf (c :: rest) || isInfixChars pat rest

/-- Python `pat in s` (substring test). -/
def containsSub (pat s : String) : Bool := isInfixChars pat.data s.data

/-- A match of the SKU regex `[A-Z]+-\d+` anchored at the start of the list:
one or more uppercase letters (greedy), a hyphen, one or more digits
(greedy). -/
def matchSkuAt (l : List Char) : Option (List Char) :=
  let ups := l.takeWhile Char.isUpper
  if ups.isEmpty then none
  else
    match l.drop ups.length with
    | '-' :: r2 =>
        let ds := r2.takeWhile Char.isDigit
        if ds.isEmpty then none else some (ups ++ '-' :: ds)
    | _ => none

/-- `re.search` for the SKU pattern: the leftmost match wins. -/
def searchSkuChars : List Char → Option String
  | [] => none
  | c :: rest =>
      match matchSkuAt (c :: rest) with
      | some m => some (String.mk m)
      | none => searchSkuChars rest

/-- `validate_sku_integrity._extract_sku`: first substring matching
`[A-Z]+-\d+`, or `None`. -/
def extract_sku (name : String) : Option String := searchSkuChars name.data

/-- `pathlib.PurePath.suffix`: the final component's extension, from the last
dot (empty when there is no dot or the dot is leading). -/
def suffixOf (name : String) : String :=
  let rev := name.data.reverse
  let ext := rev.takeWhile (fun c => ¬ c = '.')
  if ext.length = rev.length then ""
  else if ext.length + 1 = rev.length then ""
  else String.mk ('.' :: ext.reverse)

/-- Python `str.lower`. -/
def lowerS (s : String) : String := String.mk (s.data.map Char.toLower)

/-- `p.suffix.lower() in {".jpg", ".jpeg", ".png"}`. -/
def isImageSuffix (name : String) : Bool :=
  lowerS (suffixOf name) = ".jpg" || lowerS (suffixOf name) = ".jpeg" ||
    lowerS (suffixOf name) = ".png"

/-- One sub-folder of the unanalysed directory: its name and its entries in
iteration order. -/
structure UFolder where
  name : String
  children : List Entry
deriving DecidableEq

/-- A top-level entry of the unanalysed directory. -/
inductive UEntry where
  | file (name : String)
  | dir (folder : UFolder)
deriving DecidableEq

/-- The per-folder body of `check_unanalysed`: find the first `*-QC.json`
entry (report and stop for this folder when there is none), derive the SKU
(from the QC file name, else the folder name) and the stem (QC stem with
`-QC` deleted), then report the original upload (first image file whose
name does not contain the SKU), the THUMB derivative and the ANALYSE
derivative when absent — in that order. -/
def checkUFolder (f : UFolder) : List String :=
  match f.children.find? (fun e => endsWithS e.name "-QC.json") with
  | none => ["Missing QC JSON in " ++ f.name]
  | some qc =>
      let sku := (extract_sku qc.name).getD f.name
      let stem := deleteSub "-QC" (stemOf qc.name)
      (match f.children.find? (fun e =>
          e.isFile && isImageSuffix e.name && !(containsSub sku e.name)) with
        | none => ["Missing original for " ++ sku]
        | some _ => []) ++
      ((if f.children.any (fun e => e.name = stem ++ "-THUMB.jpg") then []
        else ["Missing THUMB for " ++ sku]) ++
       (if f.children.any (fun e => e.name = stem ++ "-ANALYSE.jpg") then []
        else ["Missing ANALYSE for " ++ sku]))

/-- `validate_sku_integrity.check_unanalysed`: skip top-level plain files,
check each sub-folder; an absent directory yields no errors. -/
def check_unanalysed (entries : Option (List UEntry)) : List String :=
  match entries with
  | none => []
  | some es =>
      (es.map (fun e =>
        match e with
        | .file _ => []
        | .dir f => checkUFolder f)).flatten

/-- One sub-folder of the processed directory: its name, its entries, and the
contents of its `THUMBS` sub-folder when that is a directory. -/
structure PFolder where
  name : String
  children : List Entry
  thumbsChildren : List String
deriving DecidableEq

/-- A top-level entry of the processed directory. -/
inductive PEntry where
  | file (name : String)
  | dir (folder : PFolder)
deriving DecidableEq

/-- `folder.glob(f"{pfx}*{sfx}")`: prefix, suffix, and enough length that the
star matches a (possibly empty) middle. -/
def matchGlobStar (pfx sfx name : String) : Bool :=
  startsWithS name pfx && endsWithS name sfx &&
    decide (pfx.length + sfx.length ≤ name.length)

/-- The per-folder body of `check_processed`: locate the SKU (first filename
matching the pattern — none reports "No SKU" and skips the folder), then
report, in order: the missing `THUMBS` folder, each missing required file
(main, THUMB, ANALYSE, QC JSON, FINAL JSON), a mockup-glob count other than
9, each missing numbered mockup interleaved with its missing thumbnail, and a
mockup-thumbnail-glob count other than 9. -/
def checkPFolder (f : PFolder) : List String :=
  match f.children.findSome? (fun e => extract_sku e.name) with
  | none => ["No SKU found in folder " ++ f.name]
  | some sku =>
      let slug := f.name
      let base := slug ++ "-" ++ sku
      let thumbsIsDir := f.children.any (fun e => e = Entry.dir "THUMBS")
      (if f.children.any (fun e => e.name = "THUMBS") then []
       else ["Missing THUMBS folder for " ++ sku ++ " in " ++ slug]) ++
      ((if f.children.any (fun e => e.name = base ++ ".jpg") then []
        else ["Missing Main for " ++ sku ++ " in " ++ slug]) ++
       (if f.children.any (fun e => e.name = base ++ "-THUMB.jpg") then []
        else ["Missing THUMB for " ++ sku ++ " in " ++ slug]) ++
       (if f.children.any (fun e => e.name = base ++ "-ANALYSE.jpg") then []
        else ["Missing ANALYSE for " ++ sku ++ " in " ++ slug]) ++
       (if f.children.any (fun e => e.name = sku ++ "-QC.json") then []
        else ["Missing QC JSON for " ++ sku ++ " in " ++ slug]) ++
       (if f.children.any (fun e => e.name = sku ++ "-FINAL.json") then []
        else ["Missing Final JSON for " ++ sku ++ " in " ++ slug])) ++
      ((if (f.children.filter (fun e =>
            matchGlobStar (base ++ "-MU-") ".jpg" e.name)).length = 9 then []
        else ["Expected 9 mockups for " ++ sku ++ " in " ++ slug]) ++
       ((List.range 9).map (fun k =>
          (if f.children.any (fun e =>
              e.name = base ++ "-MU-" ++ slotDigits (k + 1) ++ ".jpg") then []
           else ["Missing mockup MU-" ++ slotDigits (k + 1) ++ " for " ++ sku ++
             " in " ++ slug]) ++
          (if thumbsIsDir ∧ f.thumbsChildren.any (fun n =>
              n = base ++ "-MU-" ++ slotDigits (k + 1) ++ "-THUMB.jpg") then []
           else ["Missing mockup thumb MU-" ++ slotDigits (k + 1) ++ " for " ++
             sku ++ " in " ++ slug]))).flatten ++
       (if ((if thumbsIsDir then f.thumbsChildren.filter (fun n =>
              matchGlobStar (base ++ "-MU-") "-THUMB.jpg" n) else []).length = 9)
        then []
        else ["Expected 9 mockup thumbs for " ++ sku ++ " in " ++ slug]))

/-- `validate_sku_integrity.check_processed`. -/
def check_processed (entries : Option (List PEntry)) : List String :=
  match entries with
  | none => []
  | some es =>
      (es.map (fun e =>
        match e with
        | .file _ => []
        | .dir f => checkPFolder f)).flatten

/-- The project tree as `validate` sees it: whether `root/.env` exists and
the listings of the two stage directories (`none` = directory absent). -/
structure ProjectTree where
  hasEnv : Bool
  unanalysed : Option (List UEntry)
  processed : Option (List PEntry)

/-- `validate_sku_integrity.validate`. -/
def validate (t : ProjectTree) : List String :=
  (if t.hasEnv then [] else ["Missing .env file"]) ++
  (check_unanalysed t.unanalysed ++ check_processed t.processed)

/-- `UEntry.isFile`. -/
def UEntry.isFile : UEntry → Bool
  | .file _ => true
  | .dir _ => false

/-- A fully well-formed unanalysed unit (the tree of
`tests/test_restore_integrity.py`). -/
def cleanUFolder : UFolder :=
  ⟨"img", [Entry.file "img.jpg", Entry.file "RJC-00001-THUMB.jpg",
    Entry.file "RJC-00001-ANALYSE.jpg", Entry.file "RJC-00001-QC.json"]⟩

/-- A fully well-formed processed unit: main, THUMB, ANALYSE, QC JSON,
FINAL JSON, `THUMBS/`, 9 numbered mockups and their 9 thumbnails. -/
def cleanPFolder : PFolder :=
  ⟨"slug",
    [Entry.file "slug-RJC-12345.jpg", Entry.file "slug-RJC-12345-THUMB.jpg",
     Entry.file "slug-RJC-12345-ANALYSE.jpg", Entry.file "RJC-12345-QC.json",
     Entry.file "RJC-12345-FINAL.json", Entry.dir "THUMBS"] ++
      (List.range 9).map (fun k =>
        Entry.file ("slug-RJC-12345-MU-" ++ slotDigits (k + 1) ++ ".jpg")),
    (List.range 9).map (fun k =>
      "slug-RJC-12345-MU-" ++ slotDigits (k + 1) ++ "-THUMB.jpg")⟩

/-- The fully well-formed project tree. -/
def cleanTree : ProjectTree :=
  ⟨true, some [UEntry.dir cleanUFolder], some [PEntry.dir cleanPFolder]⟩

/-- An unanalysed unit whose THUMB derivative is missing. -/
def thumbMissingUFolder : UFolder :=
  ⟨"img", [Entry.file "img.jpg", Entry.file "RJC-00001-ANALYSE.jpg",
    Entry.file "RJC-00001-QC.json"]⟩

/-- A processed unit whose FINAL JSON is missing. -/
def finalMissingPFolder : PFolder :=
  ⟨"slug",
    [Entry.file "slug-RJC-12345.jpg", Entry.file "slug-RJC-12345-THUMB.jpg",
     Entry.file "slug-RJC-12345-ANALYSE.jpg", Entry.file "RJC-12345-QC.json",
     Entry.dir "THUMBS"] ++
      (List.range 9).map (fun k =>
        Entry.file ("slug-RJC-12345-MU-" ++ slotDigits (k + 1) ++ ".jpg")),
    (List.range 9).map (fun k =>
      "slug-RJC-12345-MU-" ++ slotDigits (k + 1) ++ "-THUMB.jpg")⟩

/-- A tree with one problem in each stage directory. -/
def twoProblemTree : ProjectTree :=
  ⟨true, some [UEntry.dir thumbMissingUFolder],
    some [PEntry.dir finalMissingPFolder]⟩

/-- C5: `validate` reports the missing `.env` marker first, then returns all
`check_unanalysed` errors followed by all `check_processed` errors in each
sub-check's own order; on a fully well-formed tree it returns the empty
list; with one problem in each stage it reports both as separate strings
(unanalysed first); with only the marker missing it reports exactly that. -/
theorem validate_aggregates (t : ProjectTree) :
    validate t =
      ((if t.hasEnv then [] else ["Missing .env file"]) ++
        check_unanalysed t.unanalysed) ++ check_processed t.processed ∧
    validate cleanTree = [] ∧
    validate twoProblemTree =
      ["Missing THUMB for RJC-00001",
       "Missing Final JSON for RJC-12345 in slug"] ∧
    validate ⟨false, some [], some []⟩ = ["Missing .env file"] :=
  ⟨(List.append_assoc _ _ _).symm, by decide, by decide, by decide⟩

/-- C6 (counterexample): a legacy flat unanalysed unit (SKU embedded in the
top-level file names) with its THUMB derivative missing produces no error at
all — `check_unanalysed` skips every top-level plain file — while the very
same files placed in a sub-folder do produce the THUMB error.  The claim
that the validator supports the legacy flat layout is false. -/
theorem check_unanalysed_ignores_flat_legacy :
    check_unanalysed (some [UEntry.file "pic-RJC-00001.jpg",
      UEntry.file "RJC-00001-ANALYSE.jpg",
      UEntry.file "RJC-00001-QC.json"]) = [] ∧
    checkUFolder ⟨"pic", [Entry.file "pic.jpg",
      Entry.file "RJC-00001-ANALYSE.jpg",
      Entry.file "RJC-00001-QC.json"]⟩ = ["Missing THUMB for RJC-00001"] :=
  ⟨by decide, by decide⟩

/-- C6 (amended): `check_unanalysed` checks only sub-folder units — top-level
plain files (the legacy flat layout) are ignored entirely.  A sub-folder
without a QC-metadata file reports exactly the missing QC JSON; a sub-folder
whose first `*-QC.json` entry is `qc` reports exactly the absences among
original upload, THUMB derivative and ANALYSE derivative, in that order,
using the SKU extracted from the QC name (folder name as fallback) and the
QC stem with `-QC` removed. -/
theorem check_unanalysed_folder_units :
    (∀ es, (∀ e ∈ es, e.isFile = true) → check_unanalysed (some es) = []) ∧
    (∀ f : UFolder, f.children.find? (fun e => endsWithS e.name "-QC.json") = none →
      check_unanalysed (some [UEntry.dir f]) = ["Missing QC JSON in " ++ f.name]) ∧
    (∀ (f : UFolder) (qc : Entry),
      f.children.find? (fun e => endsWithS e.name "-QC.json") = some qc →
      check_unanalysed (some [UEntry.dir f]) =
        (if f.children.any (fun e => e.isFile && isImageSuffix e.name &&
            !(containsSub ((extract_sku qc.name).getD f.name) e.name)) then []
         else ["Missing original for " ++ (extract_sku qc.name).getD f.name]) ++
        ((if f.children.any (fun e => e.name =
            deleteSub "-QC" (stemOf qc.name) ++ "-THUMB.jpg") then []
          else ["Missing THUMB for " ++ (extract_sku qc.name).getD f.name]) ++
         (if f.children.any (fun e => e.name =
            deleteSub "-QC" (stemOf qc.name) ++ "-ANALYSE.jpg") then []
          else ["Missing ANALYSE for " ++ (extract_sku qc.name).getD f.name]))) := by
  refine ⟨?_, ?_, ?_⟩
  · intro es
    induction es with
    | nil => intro _; rfl
    | cons e rest ih =>
      intro h
      cases e with
      | file n =>
        have hr := ih (fun x hx => h x (List.mem_cons_of_mem _ hx))
        simp only [check_unanalysed, List.map_cons, List.flatten_cons,
          List.nil_append]
        simpa [check_unanalysed] using hr
      | dir f =>
        exact absurd (h (UEntry.dir f) (List.mem_cons_self _ _))
          (by simp [UEntry.isFile])
  · intro f hq
    simp only [check_unanalysed, List.map_cons, List.map_nil,
      List.flatten_cons, List.flatten_nil, List.append_nil, checkUFolder, hq]
  · intro f qc hq
    simp only [check_unanalysed, List.map_cons, List.map_nil,
      List.flatten_cons, List.flatten_nil, List.append_nil, checkUFolder, hq]
    rcases horig : f.children.find? (fun e =>
        e.isFile && isImageSuffix e.name &&
          !(containsSub ((extract_sku qc.name).getD f.name) e.name)) with _ | e
    · rw [horig, if_neg (show ¬((f.children.any fun e =>
          e.isFile && isImageSuffix e.name &&
            !containsSub ((extract_sku qc.name).getD f.name) e.name) = true) from by
        intro hany
        rcases List.any_eq_true.mp hany with ⟨x, hx, hpx⟩
        have := List.find?_eq_none.mp horig x hx
        simp only [hpx] at this
        exact this trivial)]
    · rw [horig, if_pos (List.any_eq_true.mpr
        ⟨e, List.mem_of_find?_eq_some horig, List.find?_some horig⟩)]

/-! ## Concrete witnesses -/

/-- Concrete metadata for the witnesses. -/
def wMeta : Metadata := ⟨"t", "d", "red", "blue"⟩

/-- Constant encoder for the witnesses. -/
def encW : String → Nat → String := fun _ _ => "E"

/-- A file system holding a processed artwork, its preview, its source
ANALYSE image and all 9 mockups for slug `pic`. -/
def wfsFull : FS := fun p =>
  if p = processed_artwork_path "pic" then some "ART"
  else if p = preview_path "pic" then some "PRV"
  else if p = "unanalysed-artwork/pic/pic-ANALYSE.jpg" then some "SRC"
  else if (List.range 9).any (fun k => p = mockup_path "pic" (k + 1)) then some "MU"
  else none

/-- The witness system state. -/
def wSys : Sys := ⟨wfsFull, fun _ => none⟩

/-- The finalisation trace of slug `pic` over `wSys`. -/
def wFinSteps : List Step :=
  [Step.write (finalised_artwork_path "pic") "ART",
   Step.reg "pic" (finaliseRecord "pic" wMeta)]

/-- The analysis trace of slug `pic` over `wSys`. -/
def wAnaSteps : List Step :=
  [Step.remove (processed_artwork_path "pic"),
   Step.move "unanalysed-artwork/pic/pic-ANALYSE.jpg" (processed_artwork_path "pic"),
   Step.write (tmpPath (processed_analysis_path "pic")) MOCK_ANALYSIS_JSON,
   Step.move (tmpPath (processed_analysis_path "pic")) (processed_analysis_path "pic"),
   Step.write (processed_openai_path "pic") "SRC",
   Step.reg "pic" (analyzeRecord "pic")]

/-- Witness for `transitions_registry_last_and_paths_exist`: both transitions
run on `wSys` for slug `pic`, with their concrete traces. -/
theorem transitions_registry_last_and_paths_exist_witness :
    (∃ pre, wFinSteps = pre ++ [Step.reg (sanitize_slug "pic")
        (finaliseRecord (sanitize_slug "pic") wMeta)] ∧
      (∀ x ∈ pre, x.isReg = false) ∧
      (∀ p ∈ (finaliseRecord (sanitize_slug "pic") wMeta).paths,
        (wSys.run wFinSteps).fs.exists? p = true)) ∧
    (∃ pre s, wAnaSteps = pre ++ [Step.reg s (analyzeRecord s)] ∧
      (∀ x ∈ pre, x.isReg = false) ∧
      (∀ p ∈ (analyzeRecord s).paths,
        (wSys.run wAnaSteps).fs.exists? p = true)) :=
  ⟨(transitions_registry_last_and_paths_exist encW "pic" wMeta
      "pic/pic-ANALYSE.jpg" "unanalysed-artwork/pic/pic-ANALYSE.jpg"
      none none wSys).1 wFinSteps rfl,
   (transitions_registry_last_and_paths_exist encW "pic" wMeta
      "pic/pic-ANALYSE.jpg" "unanalysed-artwork/pic/pic-ANALYSE.jpg"
      none none wSys).2 wAnaSteps rfl⟩

/-- A file system holding only the processed artwork of slug `pic`. -/
def wfsArtOnly : FS :=
  fun p => if p = processed_artwork_path "pic" then some "ART" else none

/-- Witness for `finalise_missing_prereq`: with only the processed artwork on
disk, mockup 1 is the first missing prerequisite. -/
theorem finalise_missing_prereq_witness :
    (wfsArtOnly.exists? (processed_artwork_path (sanitize_slug "pic")) = false ∨
      ∃ i, 1 ≤ i ∧ i < 10 ∧
        wfsArtOnly.exists? (mockup_path (sanitize_slug "pic") i) = false) ∧
    (∃ p, finalise_artwork encW wfsArtOnly "pic" wMeta = .error p ∧
      (∀ sys : Sys, runExcept sys (finalise_artwork encW wfsArtOnly "pic" wMeta) = sys) ∧
      wfsArtOnly.exists? p = false ∧
      ((wfsArtOnly.exists? (processed_artwork_path (sanitize_slug "pic")) = false ∧
          p = processed_artwork_path (sanitize_slug "pic")) ∨
        (wfsArtOnly.exists? (processed_artwork_path (sanitize_slug "pic")) = true ∧
          ∃ i, 1 ≤ i ∧ i < 10 ∧ p = mockup_path (sanitize_slug "pic") i ∧
            wfsArtOnly.exists? (mockup_path (sanitize_slug "pic") i) = false ∧
            ∀ j, 1 ≤ j → j < i →
              wfsArtOnly.exists? (mockup_path (sanitize_slug "pic") j) = true))) :=
  ⟨Or.inr ⟨1, by decide, by decide, by decide⟩,
    finalise_missing_prereq encW wfsArtOnly "pic" wMeta
      (Or.inr ⟨1, by decide, by decide, by decide⟩)⟩

/-- Witness for `finalise_preview_idempotent` on `wSys` (preview present). -/
theorem finalise_preview_idempotent_witness :
    (wSys.fs.exists? (processed_artwork_path (sanitize_slug "pic")) = true) ∧
    (∀ i, 1 ≤ i → i < 10 →
      wSys.fs.exists? (mockup_path (sanitize_slug "pic") i) = true) ∧
    (∃ steps, finalise_artwork encW wSys.fs "pic" wMeta = .ok steps ∧
      (wSys.run steps).fs (finalised_artwork_path (sanitize_slug "pic")) =
        some ((wSys.fs (processed_artwork_path (sanitize_slug "pic"))).getD "") ∧
      (wSys.run steps).reg (sanitize_slug "pic") =
        some (finaliseRecord (sanitize_slug "pic") wMeta) ∧
      (wSys.fs.exists? (preview_path (sanitize_slug "pic")) = true →
        (wSys.run steps).fs (preview_path (sanitize_slug "pic")) =
          wSys.fs (preview_path (sanitize_slug "pic"))) ∧
      (wSys.fs.exists? (preview_path (sanitize_slug "pic")) = false →
        (wSys.run steps).fs (preview_path (sanitize_slug "pic")) =
          some (encW ((wSys.fs (processed_artwork_path (sanitize_slug "pic"))).getD "")
            (previewLoopResult
              (fun q => (encW ((wSys.fs (processed_artwork_path
                (sanitize_slug "pic"))).getD "") q).length) 95)))) :=
  ⟨by decide, by intro i h1 h2; interval_cases i <;> decide,
    finalise_preview_idempotent encW "pic" wMeta wSys (by decide)
      (by intro i h1 h2; interval_cases i <;> decide)⟩

/-- Nine templates of the artwork's exact size. -/
def wTemplates : List Template := List.replicate 9 ⟨(8, 10), "T"⟩

/-- Witness for `generate_mockups_idempotent` on a file system holding only
the processed artwork. -/
theorem generate_mockups_idempotent_witness :
    (wfsArtOnly.exists? (processed_artwork_path (sanitize_slug "pic")) = true) ∧
    (((∀ i, 1 ≤ i → i < 10 →
        wfsArtOnly.exists? (mockup_path (sanitize_slug "pic") i) = true) →
      generate (fun _ => (8, 10)) (fun _ _ => "C") wTemplates wfsArtOnly "pic" =
        (wfsArtOnly, [])) ∧
    (wTemplates.length = 9 →
      (∀ t ∈ wTemplates, t.size =
        (fun _ => ((8 : Nat), (10 : Nat)))
          ((wfsArtOnly (processed_artwork_path (sanitize_slug "pic"))).getD "")) →
      (∀ i, 1 ≤ i → i < 10 →
        wfsArtOnly.exists? (mockup_path (sanitize_slug "pic") i) = false) →
      (generate (fun _ => (8, 10)) (fun _ _ => "C") wTemplates wfsArtOnly "pic").2 =
        (List.range 9).map (fun k => mockup_path (sanitize_slug "pic") (k + 1)) ∧
      ((generate (fun _ => (8, 10)) (fun _ _ => "C") wTemplates wfsArtOnly "pic").2).length = 9 ∧
      (∀ i, 1 ≤ i → i < 10 →
        ((generate (fun _ => (8, 10)) (fun _ _ => "C") wTemplates wfsArtOnly "pic").1).exists?
          (mockup_path (sanitize_slug "pic") i) = true))) :=
  ⟨by decide,
    generate_mockups_idempotent (fun _ => (8, 10)) (fun _ _ => "C") wTemplates
      wfsArtOnly "pic" (by decide)⟩

/-- Witness for `check_unanalysed_folder_units` at concrete listings: one
flat file is ignored, an empty folder reports the missing QC, and a folder
holding only a QC file reports the missing original, THUMB and ANALYSE. -/
theorem check_unanalysed_folder_units_witness :
    check_unanalysed (some [UEntry.file "a.jpg"]) = [] ∧
    check_unanalysed (some [UEntry.dir ⟨"empty", []⟩]) =
      ["Missing QC JSON in " ++ "empty"] ∧
    check_unanalysed (some [UEntry.dir ⟨"u", [Entry.file "RJC-00001-QC.json"]⟩]) =
      (if (UFolder.mk "u" [Entry.file "RJC-00001-QC.json"]).children.any
          (fun e => e.isFile && isImageSuffix e.name &&
            !(containsSub ((extract_sku (Entry.file "RJC-00001-QC.json").name).getD
              (UFolder.mk "u" [Entry.file "RJC-00001-QC.json"]).name) e.name)) then []
       else ["Missing original for " ++
        (extract_sku (Entry.file "RJC-00001-QC.json").name).getD
          (UFolder.mk "u" [Entry.file "RJC-00001-QC.json"]).name]) ++
      ((if (UFolder.mk "u" [Entry.file "RJC-00001-QC.json"]).children.any
          (fun e => e.name =
            deleteSub "-QC" (stemOf (Entry.file "RJC-00001-QC.json").name) ++
              "-THUMB.jpg") then []
        else ["Missing THUMB for " ++
          (extract_sku (Entry.file "RJC-00001-QC.json").name).getD
            (UFolder.mk "u" [Entry.file "RJC-00001-QC.json"]).name]) ++
       (if (UFolder.mk "u" [Entry.file "RJC-00001-QC.json"]).children.any
          (fun e => e.name =
            deleteSub "-QC" (stemOf (Entry.file "RJC-00001-QC.json").name) ++
              "-ANALYSE.jpg") then []
        else ["Missing ANALYSE for " ++
          (extract_sku (Entry.file "RJC-00001-QC.json").name).getD
            (UFolder.mk "u" [Entry.file "RJC-00001-QC.json"]).name])) :=
  ⟨check_unanalysed_folder_units.1 [UEntry.file "a.jpg"] (by decide),
   check_unanalysed_folder_units.2.1 ⟨"empty", []⟩ rfl,
   check_unanalysed_folder_units.2.2 ⟨"u", [Entry.file "RJC-00001-QC.json"]⟩
     (Entry.file "RJC-00001-QC.json") (by decide)⟩
